import Mathlib

/-!
Verification of the session-resilient search-sweep orchestrator and its
persistence layer (`secure_scraper`): a shallow embedding of the SQLite
run store (`sqlite_store.py`), the search client retry logic
(`search_client.py`) and the orchestrator's per-unit execution loop
(`run_scraper.py`), with theorems about run bookkeeping, failure
classification and resumability.

Modelling conventions:
* Python `date` values are modelled as `Int` (days); `isoformat()` becomes
  `toString`, which is injective on `Int`, preserving the way dates enter
  signatures and rows.
* Timestamps (`_utc_now()` results) are opaque `String`s supplied as
  explicit `now` arguments; SQL `MAX(started_at)` over ISO text is the
  lexicographic `String` maximum.
* SHA-1 hex digests are modelled by keeping the digest preimage: every
  claim proved about signatures and synthesized ids concerns determinism
  and equality, which are preserved by applying any fixed function to the
  payload; the signature theorem is proved for an arbitrary digest
  function `h`.
* Latitude/longitude floats are carried as `Int`: no verified operation
  computes with them, they are only stored or ignored.
-/

namespace FalconFHR

/-- `RoomRequest` from `tasks/search_payloads.py`. -/
structure RoomRequest where
  adults : Int
  children : List Int
deriving Repr, DecidableEq

/-- `SearchParams` from `tasks/search_payloads.py` (dates as `Int` days). -/
structure SearchParams where
  location_id : String
  location_label : String
  latitude : Int
  longitude : Int
  check_in : Int
  check_out : Int
  rooms : List RoomRequest
  page : Int := 1
  page_size : Int := 50
  sort_option : String := "RECOMMENDED"
  sort_direction : String := "DESC"
  program_filter : Option (List String) := none
deriving Repr, DecidableEq

/-- `Destination` from `destinations/catalog.py`. -/
structure Destination where
  key : String
  group : String
  name : String
  location_id : Option String := none
  latitude : Option Int := none
  longitude : Option Int := none
deriving Repr, DecidableEq

/-- `_sum_adults` from `storage/sqlite_store.py`. -/
def sum_adults (rooms : List RoomRequest) : Int :=
  (rooms.map (fun room => room.adults)).sum

/-- `_sum_children` from `storage/sqlite_store.py`. -/
def sum_children (rooms : List RoomRequest) : Int :=
  (rooms.map (fun room => (room.children.length : Int))).sum

/-- Python `sorted` on strings: sorting by the lexicographic order. -/
def sortedStrings (l : List String) : List String :=
  List.insertionSort (fun a b => a ≤ b) l

/-- The digest preimage built by `SqliteStore._signature`: the `"|"`-join of
destination key, label (empty for `None`), both ISO dates, room count, adult
sum and the comma-join of the sorted program filters. -/
def signaturePayload (destination_key : String) (label : Option String)
    (params : SearchParams) (programs : List String) : String :=
  String.intercalate "|"
    [ destination_key
    , label.getD ""
    , toString params.check_in
    , toString params.check_out
    , toString params.rooms.length
    , toString (sum_adults params.rooms)
    , String.intercalate "," (sortedStrings programs) ]

/-- `SqliteStore._signature` with the SHA-1 hexdigest left abstract as `h`. -/
def signatureHash (h : String → String) (destination_key : String)
    (label : Option String) (params : SearchParams) (programs : List String) : String :=
  h (signaturePayload destination_key label params programs)

/-- The signature used by the store model: the digest preimage itself
(`h = id`; see the module conventions). -/
def signature (destination_key : String) (label : Option String)
    (params : SearchParams) (programs : List String) : String :=
  signaturePayload destination_key label params programs

/-! ### Durability-knob validation (`SqliteStore.__init__`) -/

/-- `VALID_JOURNAL_MODES` from `storage/sqlite_store.py`. -/
def VALID_JOURNAL_MODES : List String := ["delete", "truncate", "persist", "memory", "wal", "off"]

/-- `VALID_SYNCHRONOUS_MODES` from `storage/sqlite_store.py`. -/
def VALID_SYNCHRONOUS_MODES : List String := ["off", "normal", "full", "extra"]

/-- Python's `str.strip()` whitespace set (ASCII portion). -/
def pyWhitespace (c : Char) : Bool :=
  c == ' ' || c == '\t' || c == '\n' || c == '\r' || c == '\x0b' || c == '\x0c'

/-- Python `value.strip().lower()` (over the ASCII strings these knobs
take), written on the character list so it evaluates in the kernel. -/
def stripLower (s : String) : String :=
  String.mk
    ((((s.data.dropWhile pyWhitespace).reverse.dropWhile pyWhitespace).reverse).map
      Char.toLower)

/-- Shared body of `_normalize_journal_mode` / `_normalize_synchronous`:
`None` passes through, an empty/whitespace-only string becomes `None`, a
recognized mode is lowered, anything else is a `ValueError` (modelled as
`Except.error`). -/
def normalizeMode (valid : List String) (msgHead : String) :
    Option String → Except String (Option String)
  | none => .ok none
  | some value =>
      let mode := stripLower value
      if mode = "" then .ok none
      else if mode ∈ valid then .ok (some mode)
      else .error (msgHead ++ value ++ "'")

/-- `SqliteStore._normalize_journal_mode`. -/
def normalize_journal_mode : Option String → Except String (Option String) :=
  normalizeMode VALID_JOURNAL_MODES "Unsupported SQLite journal_mode '"

/-- `SqliteStore._normalize_synchronous`. -/
def normalize_synchronous : Option String → Except String (Option String) :=
  normalizeMode VALID_SYNCHRONOUS_MODES "Unsupported SQLite synchronous mode '"

/-- The state built by `SqliteStore.__init__`: normalized knobs, no
connection (`_connection = None` until `initialize`), so validation happens
strictly before any connection is opened. -/
structure SqliteStoreConfig where
  busy_timeout_ms : Int
  journal_mode : Option String
  synchronous : Option String
deriving Repr, DecidableEq

/-- `SqliteStore.__init__`: normalizes the journal mode, then the
synchronous mode; either failure is a `ValueError` raised at construction. -/
def mkSqliteStore (busy_timeout_ms : Int) (journal_mode synchronous : Option String) :
    Except String SqliteStoreConfig := do
  let j ← normalize_journal_mode journal_mode
  let s ← normalize_synchronous synchronous
  return { busy_timeout_ms := busy_timeout_ms, journal_mode := j, synchronous := s }

/-! ### The `search_runs` table and its mutators -/

/-- One row of the `search_runs` table (migration 1 in
`storage/sqlite_store.py`), with `program_filter` kept as the list it
JSON-encodes and `raw_context` as an opaque serialized blob. -/
structure SearchRunRow where
  id : Nat
  destination_key : String
  destination_group : Option String
  destination_name : Option String
  label : Option String
  check_in : Int
  check_out : Int
  nights : Int
  adults : Int
  children : Int
  rooms : Nat
  program_filter : List String
  request_id : Option String
  status : String
  started_at : String
  completed_at : Option String
  failure_reason : Option String
  total_hotels : Int
  total_rates : Int
  search_signature : String
  raw_context : Option String
  created_at : String
  updated_at : String
deriving Repr, DecidableEq

/-- The `search_runs` table plus its AUTOINCREMENT counter. -/
structure SearchRunsTable where
  rows : List SearchRunRow
  next_id : Nat
deriving Repr, DecidableEq

/-- The `UPDATE ... SET status='failed', failure_reason='Superseded by new
run' ... WHERE search_signature=? AND status='running'` step of
`SqliteStore.begin_run`, applied to one row. -/
def demoteRunning (sig now : String) (r : SearchRunRow) : SearchRunRow :=
  if r.search_signature == sig && r.status == "running" then
    { r with status := "failed", failure_reason := some "Superseded by new run",
             updated_at := now }
  else r

/-- The fresh `status='running'` row inserted by `SqliteStore.begin_run`. -/
def newRunRow (rid : Nat) (destination : Destination) (params : SearchParams)
    (label : Option String) (sig now : String) (programs : List String) : SearchRunRow :=
  { id := rid
  , destination_key := destination.key
  , destination_group := some destination.group
  , destination_name := some destination.name
  , label := label
  , check_in := params.check_in
  , check_out := params.check_out
  , nights := params.check_out - params.check_in
  , adults := sum_adults params.rooms
  , children := sum_children params.rooms
  , rooms := params.rooms.length
  , program_filter := programs
  , request_id := none
  , status := "running"
  , started_at := now
  , completed_at := none
  , failure_reason := none
  , total_hotels := 0
  , total_rates := 0
  , search_signature := sig
  , raw_context := none
  , created_at := now
  , updated_at := now }

/-- `SqliteStore.begin_run`: demote every running row sharing the computed
signature, then insert one new running row and return its id. (The
`destinations` upsert touches a separate table and is not part of this
model.) -/
def begin_run (t : SearchRunsTable) (destination : Destination)
    (params : SearchParams) (label : Option String) (now : String) :
    SearchRunsTable × Nat :=
  let programs := params.program_filter.getD []
  let sig := signature destination.key label params programs
  let demoted := t.rows.map (demoteRunning sig now)
  ( { rows := demoted ++ [newRunRow t.next_id destination params label sig now programs]
    , next_id := t.next_id + 1 }
  , t.next_id )

/-- `SqliteStore.finalize_run`: `UPDATE search_runs SET status='complete',
completed_at, updated_at, total_hotels, total_rates, request_id,
raw_context WHERE id=?`. -/
def finalize_run (t : SearchRunsTable) (run_id : Nat)
    (total_hotels total_rates : Int) (request_id : Option String)
    (context : Option String) (now : String) : SearchRunsTable :=
  { t with rows := t.rows.map (fun r =>
      if r.id == run_id then
        { r with status := "complete", completed_at := some now, updated_at := now,
                 total_hotels := total_hotels, total_rates := total_rates,
                 request_id := request_id, raw_context := context }
      else r) }

/-- `SqliteStore.mark_run_failed`: `UPDATE search_runs SET status='failed',
completed_at=?, updated_at=?, failure_reason=? WHERE id=?`, the reason
truncated to 512 characters (`reason[:512]`). -/
def mark_run_failed (t : SearchRunsTable) (run_id : Nat) (reason now : String) :
    SearchRunsTable :=
  { t with rows := t.rows.map (fun r =>
      if r.id == run_id then
        { r with status := "failed", completed_at := some now, updated_at := now,
                 failure_reason := some (reason.take 512) }
      else r) }

/-- `SqliteStore.store_run_payload`: when a payload is present, stamp the
request id and serialized context onto the run row. -/
def store_run_payload (t : SearchRunsTable) (run_id : Nat)
    (request_id : Option String) (context : Option String) (now : String) :
    SearchRunsTable :=
  { t with rows := t.rows.map (fun r =>
      if r.id == run_id then
        { r with request_id := request_id, raw_context := context, updated_at := now }
      else r) }

/-- Number of `status='running'` rows carrying a given signature. -/
def countRunning (sig : String) (t : SearchRunsTable) : Nat :=
  (t.rows.filter (fun r => r.search_signature == sig && r.status == "running")).length

/-- Number of rows carrying a given signature (any status). -/
def countSig (sig : String) (t : SearchRunsTable) : Nat :=
  (t.rows.filter (fun r => r.search_signature == sig)).length

/-- The row produced by `mark_run_failed` for the addressed id. -/
def failedUpdate (reason now : String) (r : SearchRunRow) : SearchRunRow :=
  { r with status := "failed", completed_at := some now, updated_at := now,
           failure_reason := some (reason.take 512) }

/-- Concrete destination used by witnesses. -/
def destA : Destination :=
  { key := "tokyo", group := "Asia", name := "Tokyo"
  , location_id := some "LOC-1", latitude := some 1, longitude := some 2 }

/-- Concrete search parameters used by witnesses. -/
def paramsA : SearchParams :=
  { location_id := "LOC-1", location_label := "Tokyo", latitude := 1, longitude := 2
  , check_in := 20, check_out := 23, rooms := [{ adults := 2, children := [] }]
  , program_filter := some ["FHR"] }

/-- A running row carrying `destA`/`paramsA`'s signature, as left by a crashed
attempt. -/
def runningRowA : SearchRunRow :=
  newRunRow 7 destA paramsA (some "2026-01-15")
    (signature destA.key (some "2026-01-15") paramsA ["FHR"]) "t0" ["FHR"]

/-- A small concrete table used by witnesses. -/
def tableA : SearchRunsTable :=
  { rows := [runningRowA], next_id := 8 }

theorem filter_demote_nil (sig now : String) (rows : List SearchRunRow) :
    (rows.map (demoteRunning sig now)).filter
      (fun r => r.search_signature == sig && r.status == "running") = [] := by
  induction rows with
  | nil => rfl
  | cons r rest ih =>
    simp only [List.map_cons, List.filter_cons]
    by_cases h : (r.search_signature == sig && r.status == "running") = true
    · have hconj := (Bool.and_eq_true _ _).mp h
      have hsig : r.search_signature = sig := beq_iff_eq.mp hconj.1
      have hstat : r.status = "running" := beq_iff_eq.mp hconj.2
      simp [demoteRunning, h, ih, hsig, hstat]
    · simp [demoteRunning, h, ih]

theorem filter_demote_other (sig sig' now : String) (rows : List SearchRunRow)
    (hne : sig' ≠ sig) :
    (rows.map (demoteRunning sig now)).filter
      (fun r => r.search_signature == sig' && r.status == "running")
      = rows.filter (fun r => r.search_signature == sig' && r.status == "running") := by
  induction rows with
  | nil => rfl
  | cons r rest ih =>
    simp only [List.map_cons, List.filter_cons]
    by_cases h : (r.search_signature == sig && r.status == "running") = true
    · have hconj := (Bool.and_eq_true _ _).mp h
      have hsig : r.search_signature = sig := beq_iff_eq.mp hconj.1
      have hstat : r.status = "running" := beq_iff_eq.mp hconj.2
      have hnot : sig ≠ sig' := fun hc => hne (hc.symm)
      simp [demoteRunning, h, ih, hsig, hstat, hnot]
    · simp [demoteRunning, h, ih]

/-- C2. After `begin_run`, the begun signature has exactly one running row,
namely the freshly inserted one; every previously running row of that
signature is demoted to failed/"Superseded by new run"; running counts of
all other signatures are untouched; and the at-most-one-running-per-signature
invariant is preserved, so two `begin_run` calls for the same signature never
leave two concurrently running rows. -/
theorem begin_run_supersedes (t : SearchRunsTable) (destination : Destination)
    (params : SearchParams) (label : Option String) (now : String)
    (hinv : ∀ s, countRunning s t ≤ 1) :
    countRunning (signature destination.key label params (params.program_filter.getD []))
      (begin_run t destination params label now).1 = 1
    ∧ (∀ r ∈ (begin_run t destination params label now).1.rows,
        r.search_signature
            = signature destination.key label params (params.program_filter.getD []) →
        r.status = "running" → r.id = (begin_run t destination params label now).2)
    ∧ (∀ r ∈ t.rows,
        r.search_signature
            = signature destination.key label params (params.program_filter.getD []) →
        r.status = "running" →
        { r with status := "failed", failure_reason := some "Superseded by new run",
                 updated_at := now } ∈ (begin_run t destination params label now).1.rows)
    ∧ (∀ s, s ≠ signature destination.key label params (params.program_filter.getD []) →
        countRunning s (begin_run t destination params label now).1 = countRunning s t)
    ∧ (∀ s, countRunning s (begin_run t destination params label now).1 ≤ 1) := by
  set sig := signature destination.key label params (params.program_filter.getD []) with hsig
  have hone : countRunning sig (begin_run t destination params label now).1 = 1 := by
    simp only [countRunning, begin_run, List.filter_append, filter_demote_nil]
    simp [newRunRow]
  refine ⟨hone, ?_, ?_, ?_, ?_⟩
  · intro r hr hrsig hrstat
    simp only [begin_run, List.mem_append, List.mem_map, List.mem_singleton] at hr
    rcases hr with ⟨r0, hr0, rfl⟩ | rfl
    · by_cases h : (r0.search_signature == sig && r0.status == "running") = true
      · exfalso
        have : (demoteRunning sig now r0).status = "failed" := by
          simp [demoteRunning, h]
        rw [hrstat] at this
        exact absurd this (by decide)
      · exfalso
        have heq : demoteRunning sig now r0 = r0 := by simp [demoteRunning, h]
        rw [heq] at hrsig hrstat
        exact h (by simp [hrsig, hrstat])
    · rfl
  · intro r hr hrsig hrstat
    simp only [begin_run, List.mem_append]
    left
    refine List.mem_map.mpr ⟨r, hr, ?_⟩
    simp [demoteRunning, hrsig, hrstat]
  · intro s hs
    simp only [countRunning, begin_run, List.filter_append,
      filter_demote_other sig s now t.rows hs]
    simp [newRunRow, Ne.symm hs]
  · intro s
    by_cases hs : s = sig
    · rw [hs, hone]
    · have h1 : countRunning s (begin_run t destination params label now).1
          = countRunning s t := by
        simp only [countRunning, begin_run, List.filter_append,
          filter_demote_other sig s now t.rows hs]
        simp [newRunRow, Ne.symm hs]
      rw [h1]; exact hinv s

/-- C2 witness: `begin_run` on a table already holding a stale running row
for the same signature leaves exactly one running row (the one-row table
satisfies the at-most-one-running invariant since any filter of it has
length at most 1). -/
theorem begin_run_supersedes_witness :
    countRunning
        (signature destA.key (some "2026-01-15") paramsA (paramsA.program_filter.getD []))
        (begin_run tableA destA paramsA (some "2026-01-15") "t1").1 = 1 :=
  (begin_run_supersedes tableA destA paramsA (some "2026-01-15") "t1"
      (fun s => le_trans (List.length_filter_le
        (fun r => r.search_signature == s && r.status == "running") tableA.rows)
        (by decide))).1

/-- C10. `mark_run_failed` is an unconditional `UPDATE ... WHERE id=?`: it
keeps the row count, rewrites every row with the addressed id to
status='failed' with `completed_at`/`updated_at` stamped and the reason
truncated to 512 characters — including a row whose status is 'complete',
which is demoted — leaves other rows untouched, and is a no-op (not an
error) when no row has the id. -/
theorem mark_run_failed_unconditional (t : SearchRunsTable) (run_id : Nat)
    (reason now : String) :
    (mark_run_failed t run_id reason now).rows.length = t.rows.length
    ∧ (∀ r ∈ t.rows, r.id = run_id →
        failedUpdate reason now r ∈ (mark_run_failed t run_id reason now).rows
        ∧ (failedUpdate reason now r).status = "failed"
        ∧ (failedUpdate reason now r).completed_at = some now
        ∧ (failedUpdate reason now r).updated_at = now
        ∧ (failedUpdate reason now r).failure_reason = some (reason.take 512))
    ∧ (∀ r ∈ t.rows, r.id = run_id → r.status = "complete" →
        failedUpdate reason now r ∈ (mark_run_failed t run_id reason now).rows
        ∧ (failedUpdate reason now r).status = "failed")
    ∧ (∀ r ∈ t.rows, r.id ≠ run_id → r ∈ (mark_run_failed t run_id reason now).rows)
    ∧ ((∀ r ∈ t.rows, r.id ≠ run_id) → mark_run_failed t run_id reason now = t) := by
  refine ⟨by simp [mark_run_failed], ?_, ?_, ?_, ?_⟩
  · intro r hr hid
    refine ⟨?_, rfl, rfl, rfl, rfl⟩
    simp only [mark_run_failed]
    refine List.mem_map.mpr ⟨r, hr, ?_⟩
    simp [hid, failedUpdate]
  · intro r hr hid _
    refine ⟨?_, rfl⟩
    simp only [mark_run_failed]
    refine List.mem_map.mpr ⟨r, hr, ?_⟩
    simp [hid, failedUpdate]
  · intro r hr hid
    simp only [mark_run_failed]
    refine List.mem_map.mpr ⟨r, hr, ?_⟩
    simp [hid]
  · intro hall
    have hmap : ∀ (l : List SearchRunRow), (∀ r ∈ l, r.id ≠ run_id) →
        l.map (fun r => if r.id == run_id then
          { r with status := "failed", completed_at := some now, updated_at := now,
                   failure_reason := some (reason.take 512) } else r) = l := by
      intro l hl
      induction l with
      | nil => rfl
      | cons a as ih =>
        have ha : ¬ ((a.id == run_id) = true) := by
          simp only [beq_iff_eq]
          exact hl a (List.mem_cons_self a as)
        have ih' := ih (fun r hr => hl r (List.mem_cons_of_mem a hr))
        simp only [List.map_cons, if_neg ha, ih']
    cases t with
    | mk rows nid =>
      simp only [mark_run_failed, SearchRunsTable.mk.injEq, and_true]
      exact hmap rows hall

/-- C10 witness: applying `mark_run_failed` to the concrete one-row table
keeps the row count. -/
theorem mark_run_failed_unconditional_witness :
    (mark_run_failed tableA 7 "boom" "t9").rows.length = tableA.rows.length :=
  (mark_run_failed_unconditional tableA 7 "boom" "t9").1

/-! ### C8: eager validation of the durability knobs -/

/-- C8 counterexample: the empty string is not in the enumerated accepted
journal-mode set, yet `SqliteStore.__init__` accepts it (it is normalized to
`None`, disabling the pragma) instead of raising `ValueError`. -/
theorem mode_validation_empty_accepted :
    mkSqliteStore 2000 (some "") (some "normal")
      = .ok { busy_timeout_ms := 2000, journal_mode := none, synchronous := some "normal" } := by
  rfl

/-- `mkSqliteStore` as sequential validation: journal mode first, then
synchronous mode. -/
theorem mkSqliteStore_eq (busy : Int) (j s : Option String) :
    mkSqliteStore busy j s = match normalize_journal_mode j with
      | .error e => .error e
      | .ok jv => match normalize_synchronous s with
        | .error e => .error e
        | .ok sv => .ok { busy_timeout_ms := busy, journal_mode := jv, synchronous := sv } := by
  unfold mkSqliteStore
  cases hj : normalize_journal_mode j with
  | error e => rfl
  | ok jv =>
    cases hs : normalize_synchronous s with
    | error e => rfl
    | ok sv => rfl

/-- C8 (amended). Construction validates both knobs eagerly: a value whose
trimmed lowercase form is nonempty and outside the accepted set raises
`ValueError` at `__init__` (the config carries no connection, so this is
before any connection is opened); accepted values are normalized modulo
case and surrounding whitespace; empty/whitespace-only values are treated
like `None`. -/
theorem mode_validation_eager (busy : Int) (j s : Option String) :
    (∀ v, j = some v → stripLower v ≠ "" → stripLower v ∉ VALID_JOURNAL_MODES →
        ∃ msg, mkSqliteStore busy j s = .error msg)
    ∧ (∀ v, s = some v → stripLower v ≠ "" → stripLower v ∉ VALID_SYNCHRONOUS_MODES →
        ∃ msg, mkSqliteStore busy j s = .error msg)
    ∧ (∀ vj vs, j = some vj → s = some vs →
        stripLower vj ∈ VALID_JOURNAL_MODES → stripLower vs ∈ VALID_SYNCHRONOUS_MODES →
        mkSqliteStore busy j s
          = .ok { busy_timeout_ms := busy, journal_mode := some (stripLower vj),
                  synchronous := some (stripLower vs) }) := by
  refine ⟨?_, ?_, ?_⟩
  · rintro v rfl hne hnotin
    refine ⟨"Unsupported SQLite journal_mode '" ++ v ++ "'", ?_⟩
    have hj : normalize_journal_mode (some v)
        = .error ("Unsupported SQLite journal_mode '" ++ v ++ "'") := by
      simp [normalize_journal_mode, normalizeMode, hne, hnotin]
    rw [mkSqliteStore_eq, hj]
  · rintro v rfl hne hnotin
    have hs : normalize_synchronous (some v)
        = .error ("Unsupported SQLite synchronous mode '" ++ v ++ "'") := by
      simp [normalize_synchronous, normalizeMode, hne, hnotin]
    cases hj : normalize_journal_mode j with
    | error e => exact ⟨e, by rw [mkSqliteStore_eq, hj]⟩
    | ok jv =>
        refine ⟨"Unsupported SQLite synchronous mode '" ++ v ++ "'", ?_⟩
        rw [mkSqliteStore_eq, hj, hs]
  · rintro vj vs rfl rfl hjmem hsmem
    have hjne : stripLower vj ≠ "" := by
      intro hc; rw [hc] at hjmem; exact absurd hjmem (by decide)
    have hsne : stripLower vs ≠ "" := by
      intro hc; rw [hc] at hsmem; exact absurd hsmem (by decide)
    have hj : normalize_journal_mode (some vj) = .ok (some (stripLower vj)) := by
      simp [normalize_journal_mode, normalizeMode, hjne, hjmem]
    have hs : normalize_synchronous (some vs) = .ok (some (stripLower vs)) := by
      simp [normalize_synchronous, normalizeMode, hsne, hsmem]
    rw [mkSqliteStore_eq, hj, hs]

/-- C8 witness: a cased, padded accepted pair normalizes and is accepted. -/
theorem mode_validation_eager_witness :
    mkSqliteStore 2000 (some " WAL ") (some "Full")
      = .ok { busy_timeout_ms := 2000, journal_mode := some "wal",
              synchronous := some "full" } := by
  have h := (mode_validation_eager 2000 (some " WAL ") (some "Full")).2.2 " WAL " "Full"
    rfl rfl (by decide) (by decide)
  rw [h]
  rfl

/-! ### C9: the search signature -/

theorem sortedStrings_perm {l l' : List String} (h : l.Perm l') :
    sortedStrings l = sortedStrings l' :=
  List.eq_of_perm_of_sorted
    ((List.perm_insertionSort _ l).trans (h.trans (List.perm_insertionSort _ l').symm))
    (List.sorted_insertionSort _ l)
    (List.sorted_insertionSort _ l')

/-- C9. The search signature is a deterministic function of exactly
(destination key, label, check-in, check-out, room count, adult sum, sorted
program filters): for any digest function `h`, two parameter sets agreeing
on those projections — with the program filters in any order — yield the
identical signature, whatever their other fields are. -/
theorem signature_deterministic (h : String → String) (destination_key : String)
    (label : Option String) (p q : SearchParams) (progs progs' : List String)
    (hci : p.check_in = q.check_in) (hco : p.check_out = q.check_out)
    (hrooms : p.rooms.length = q.rooms.length)
    (hadults : sum_adults p.rooms = sum_adults q.rooms)
    (hperm : progs.Perm progs') :
    signatureHash h destination_key label p progs
      = signatureHash h destination_key label q progs' := by
  unfold signatureHash signaturePayload
  rw [hci, hco, hrooms, hadults, sortedStrings_perm hperm]

/-- Parameters equal to `paramsA` on the signature-relevant projections but
different elsewhere. -/
def paramsB : SearchParams :=
  { paramsA with
    latitude := 99
    longitude := -5
    location_label := "elsewhere"
    location_id := "OTHER"
    page := 3
    page_size := 10
    sort_option := "PRICE"
    program_filter := none }

/-- C9 witness: reordering program filters and changing non-signature fields
leaves the signature unchanged. -/
theorem signature_deterministic_witness :
    signatureHash (fun s => s) "tokyo" none paramsA ["THC", "FHR"]
      = signatureHash (fun s => s) "tokyo" none paramsB ["FHR", "THC"] :=
  signature_deterministic (fun s => s) "tokyo" none paramsA paramsB
    ["THC", "FHR"] ["FHR", "THC"] rfl rfl rfl rfl (by decide)

/-! ### C1: `_post_properties` error classification -/

/-- The HTTP response seen by `SearchClient._post_properties`. -/
structure HttpResponse where
  ok : Bool
  status : Nat
  body : String
deriving Repr, DecidableEq

/-- The errors `SearchClient._post_properties` can raise: the distinguished
`UnauthorizedSearchError` for 401/403, and a plain `RuntimeError` (carrying
only a formatted message) for every other non-OK status. The client module
defines no backend-unavailable error type. -/
inductive PostError where
  | unauthorizedSearch (status : Nat) (body : String)
  | runtimeFailure (msg : String)
deriving Repr, DecidableEq

/-- `SearchClient._post_properties`: OK responses return the parsed body;
401/403 raise `UnauthorizedSearchError(status, text)`; anything else raises
`RuntimeError(f"Search request failed ({status}): {text[:512]}")`. -/
def post_properties (response : HttpResponse) : Except PostError String :=
  if response.ok then .ok response.body
  else if response.status = 401 ∨ response.status = 403 then
    .error (.unauthorizedSearch response.status response.body)
  else
    .error (.runtimeFailure
      ("Search request failed (" ++ toString response.status ++ "): "
        ++ response.body.take 512))

/-- C1 (code bug): for every definitive non-auth error response the client
raises a plain `RuntimeError`, not a distinguished backend-unavailable
error — `PostError` (like `search_client.py`) has no such constructor,
while `run_scraper.py` imports and catches `BackendUnavailableError` from
this module. -/
theorem post_properties_generic_runtime_error (response : HttpResponse)
    (hok : response.ok = false) (h401 : response.status ≠ 401)
    (h403 : response.status ≠ 403) :
    post_properties response
      = .error (.runtimeFailure
          ("Search request failed (" ++ toString response.status ++ "): "
            ++ response.body.take 512)) := by
  simp [post_properties, hok, h401, h403]

/-- C1 witness: a 500 response yields the generic runtime failure
(`RuntimeError` message), not a distinguished backend-unavailable error. -/
theorem post_properties_generic_runtime_error_witness :
    post_properties { ok := false, status := 500, body := "backend down" }
      = .error (.runtimeFailure
          ("Search request failed (" ++ toString (500 : Nat) ++ "): "
            ++ ("backend down" : String).take 512)) :=
  post_properties_generic_runtime_error
    { ok := false, status := 500, body := "backend down" } rfl (by decide) (by decide)

/-! ### C5: rate snapshots are replaced, not accumulated -/

/-- Python string coercion of an optional field, `record.get(key, "")`. -/
def optStr : Option String → String
  | none => ""
  | some s => s

/-- Python truthiness of an optional string field. -/
def truthy : Option String → Bool
  | none => false
  | some s => !(s == "")

/-- One raw rate record as consumed by `SqliteStore.save_rates`; `summary`
stands for the serialized summary payload (only fed into synthesized ids
and carried-through columns). -/
structure RateRecord where
  property_id : Option String := none
  room_type_id : Option String := none
  room_type_name : Option String := none
  rate_id : Option String := none
  summary : String := ""
deriving Repr, DecidableEq

/-- `SqliteStore._resolve_room_type_id`: keep a truthy given id, otherwise
synthesize `anon_` plus the digest of `property_id|room_type_name|summary`
(digest modelled by its preimage). -/
def resolve_room_type_id (record : RateRecord) : String :=
  if truthy record.room_type_id then optStr record.room_type_id
  else "anon_" ++ optStr record.property_id ++ "|"
        ++ optStr record.room_type_name ++ "|" ++ record.summary

/-- `SqliteStore._resolve_rate_id`: keep a truthy given id, otherwise
synthesize `rate_` plus the digest of the (property_id, room_type_id,
summary) payload (digest modelled by its preimage). -/
def resolve_rate_id (record : RateRecord) (room_type_id : String) : String :=
  if truthy record.rate_id then optStr record.rate_id
  else "rate_" ++ optStr record.property_id ++ "|" ++ room_type_id ++ "|" ++ record.summary

/-- One row of `rate_snapshots` (key columns; the pricing columns are copied
verbatim from the record and play no role in the replace-on-retry claim). -/
structure RateSnapshotRow where
  run_id : Nat
  property_id : String
  room_type_id : String
  rate_id : String
  created_at : String
deriving Repr, DecidableEq

/-- The `rate_entries` accumulation loop of `SqliteStore.save_rates`:
records without a truthy `property_id` are skipped, and a
`seen_snapshots` set deduplicates on (property_id, room_type_id, rate_id). -/
def buildRateEntries (run_id : Nat) (now : String) :
    List RateRecord → List (String × String × String) → List RateSnapshotRow
  | [], _ => []
  | record :: rest, seen =>
    if truthy record.property_id then
      let pid := optStr record.property_id
      let rtid := resolve_room_type_id record
      let rid := resolve_rate_id record rtid
      if (pid, rtid, rid) ∈ seen then buildRateEntries run_id now rest seen
      else { run_id := run_id, property_id := pid, room_type_id := rtid,
             rate_id := rid, created_at := now }
            :: buildRateEntries run_id now rest ((pid, rtid, rid) :: seen)
    else buildRateEntries run_id now rest seen

/-- The snapshot rows derived from one `save_rates` call. -/
def rate_entries (run_id : Nat) (records : List RateRecord) (now : String) :
    List RateSnapshotRow :=
  buildRateEntries run_id now records []

/-- `SqliteStore.save_rates` restricted to the `rate_snapshots` table:
`DELETE FROM rate_snapshots WHERE run_id=?` then insert the fresh entries.
(`room_types` and `hotel_promotions` are separate tables outside this
claim.) -/
def save_rates (table : List RateSnapshotRow) (run_id : Nat)
    (records : List RateRecord) (now : String) : List RateSnapshotRow :=
  table.filter (fun sr => !(sr.run_id == run_id)) ++ rate_entries run_id records now

theorem buildRateEntries_run_id (run_id : Nat) (now : String)
    (records : List RateRecord) (seen : List (String × String × String)) :
    ∀ sr ∈ buildRateEntries run_id now records seen, sr.run_id = run_id := by
  induction records generalizing seen with
  | nil => intro sr h; cases h
  | cons record rest ih =>
    intro sr h
    simp only [buildRateEntries] at h
    by_cases ht : truthy record.property_id
    · simp only [ht, if_true] at h
      by_cases hseen : (optStr record.property_id, resolve_room_type_id record,
          resolve_rate_id record (resolve_room_type_id record)) ∈ seen
      · rw [if_pos hseen] at h
        exact ih seen sr h
      · rw [if_neg hseen] at h
        rcases List.mem_cons.mp h with hh | hh
        · rw [hh]
        · exact ih _ sr hh
    · rw [if_neg ht] at h
      exact ih seen sr h

theorem save_rates_filter (table : List RateSnapshotRow) (run_id : Nat)
    (records : List RateRecord) (now : String) :
    (save_rates table run_id records now).filter (fun sr => sr.run_id == run_id)
        = rate_entries run_id records now
    ∧ (save_rates table run_id records now).filter (fun sr => !(sr.run_id == run_id))
        = table.filter (fun sr => !(sr.run_id == run_id)) := by
  constructor
  · simp only [save_rates, List.filter_append]
    rw [List.filter_filter]
    have h1 : table.filter (fun sr => (sr.run_id == run_id) && !(sr.run_id == run_id)) = [] := by
      apply List.filter_eq_nil_iff.mpr
      intro sr _
      cases hb : sr.run_id == run_id <;> simp [hb]
    have h2 : (rate_entries run_id records now).filter (fun sr => sr.run_id == run_id)
        = rate_entries run_id records now := by
      apply List.filter_eq_self.mpr
      intro sr hsr
      simp [buildRateEntries_run_id run_id now records [] sr hsr]
    rw [h1, h2, List.nil_append]
  · simp only [save_rates, List.filter_append]
    rw [List.filter_filter]
    have h1 : table.filter (fun sr => !(sr.run_id == run_id) && !(sr.run_id == run_id))
        = table.filter (fun sr => !(sr.run_id == run_id)) := by
      apply List.filter_congr
      intro sr _
      cases hb : sr.run_id == run_id <;> simp [hb]
    have h2 : (rate_entries run_id records now).filter (fun sr => !(sr.run_id == run_id))
        = [] := by
      apply List.filter_eq_nil_iff.mpr
      intro sr hsr
      simp [buildRateEntries_run_id run_id now records [] sr hsr]
    rw [h1, h2, List.append_nil]

/-- C5. Saving rates twice for the same run id leaves exactly the rows
derived from the second record set — the first call's snapshots for that
run id are deleted before the fresh insert — and rows of other run ids are
untouched; the result is never the union of both sets. -/
theorem save_rates_replace_on_retry (table : List RateSnapshotRow) (run_id : Nat)
    (recsA recsB : List RateRecord) (nowA nowB : String) :
    (save_rates (save_rates table run_id recsA nowA) run_id recsB nowB).filter
        (fun sr => sr.run_id == run_id) = rate_entries run_id recsB nowB
    ∧ (save_rates (save_rates table run_id recsA nowA) run_id recsB nowB).filter
        (fun sr => !(sr.run_id == run_id))
        = table.filter (fun sr => !(sr.run_id == run_id)) := by
  refine ⟨(save_rates_filter _ run_id recsB nowB).1, ?_⟩
  rw [(save_rates_filter _ run_id recsB nowB).2,
      (save_rates_filter table run_id recsA nowA).2]

/-! ### `SearchClient._fetch_properties_page` -/

/-- Outcome of one page fetch: aggregated data, the distinguished
session-refresh error, or a propagating `RuntimeError`. -/
inductive PageFetchResult where
  | ok (data : String) (token : String)
  | sessionRefreshError (msg : String)
  | runtimeError (msg : String)
deriving Repr, DecidableEq

/-- The environment a page fetch interacts with, indexed by the
`refresh_attempt` counter: the opportunistic warm-up capture (`none` when
its bounded wait times out), the direct POST response, and the forced
account-token refresh (`Except.error` when the token endpoint exhausts its
own retries with a `RuntimeError`). -/
structure PageFetchEnv where
  warmup : Nat → Option String
  post : Nat → HttpResponse
  refreshToken : Nat → Except String String

/-- The `for refresh_attempt in range(3)` loop body of
`SearchClient._fetch_properties_page`: try the warm-up capture when
enabled, fall back to the direct POST; an authorization-denied POST forces
a token refresh (whose `RuntimeError` becomes `SessionRefreshError`) and
re-enters the loop with warm-up enabled; exhausting the attempts raises
`SessionRefreshError`. -/
def fetchPageLoop (env : PageFetchEnv) : List Nat → String → Bool → PageFetchResult
  | [], _, _ => .sessionRefreshError "Search request failed after refreshing session"
  | i :: rest, token, useWarmup =>
    match (if useWarmup then env.warmup i else none) with
    | some data => .ok data token
    | none =>
      match post_properties (env.post i) with
      | .ok data => .ok data token
      | .error (.runtimeFailure msg) => .runtimeError msg
      | .error (.unauthorizedSearch _ _) =>
        match env.refreshToken i with
        | .error msg => .sessionRefreshError msg
        | .ok tok => fetchPageLoop env rest tok true

/-- `SearchClient._fetch_properties_page`: the loop over
`range(3)` refresh attempts. -/
def fetch_properties_page (env : PageFetchEnv) (account_token : String)
    (warmup_page : Bool) : PageFetchResult :=
  fetchPageLoop env [0, 1, 2] account_token warmup_page

/-! ### The orchestrator per-unit loop (`_execute_destination_runs`) -/

/-- Classification of one `client.fetch_properties` attempt as the
orchestrator's `except` clauses see it: success, `TargetClosedError`, a
`PatchrightError` whose message marks the context as disposed, any other
`PatchrightError`, `SessionRefreshError`, `BackendUnavailableError` (the
classification the code intends; see the C1 result), or any other
exception. -/
inductive FetchOutcome where
  | success
  | targetClosed
  | contextDisposed
  | patchrightOther (msg : String)
  | sessionRefresh
  | backendUnavailable (status : Nat) (body : String)
  | otherError (msg : String)
deriving Repr, DecidableEq

/-- The data a successful fetch hands to the persistence steps. -/
structure FetchResults where
  request_id : Option String := none
  context : Option String := none
  hotel_count : Int := 0
  rate_count : Int := 0
deriving Repr, DecidableEq

/-- One scheduled `_DestinationRun` together with the behaviour of its
fetch attempts (`attempts i` is what attempt `i` of the inner rebuild loop
observes) and the timestamp of this unit's store writes. -/
structure UnitSpec where
  destination : Destination
  params : SearchParams
  label : Option String
  attempts : Nat → FetchOutcome
  results : FetchResults
  now : String

/-- State local to one unit's inner loop: the store table and the `run_id`
variable (`None` until `begin_run` has been called). -/
structure LoopState where
  table : SearchRunsTable
  run_id : Option Nat

/-- How the inner `for rebuild_attempt in range(2)` loop ends: `break` with
results, `break` with a captured backend failure (recording whether
`last_session_error` was still set), loop exhaustion with
`last_session_error` set (→ fatal session error), loop exhaustion without
it (→ the `assert results is not None` fires), or an exception propagating
out of the loop body. -/
inductive LoopExit where
  | gotResults (ls : LoopState)
  | backend (status : Nat) (body : String) (lastSE : Bool) (ls : LoopState)
  | sessionExhausted (ls : LoopState)
  | exhaustedNoError (ls : LoopState)
  | raisedOther (msg : String) (ls : LoopState)

/-- The `ls` carried by a loop exit. -/
def LoopExit.state : LoopExit → LoopState
  | .gotResults ls => ls
  | .backend _ _ _ ls => ls
  | .sessionExhausted ls => ls
  | .exhaustedNoError ls => ls
  | .raisedOther _ ls => ls

/-- `if db_store and run_id is None: run_id = await db_store.begin_run(...)`. -/
def beginIfNeeded (dbStore : Bool) (u : UnitSpec) (ls : LoopState) : LoopState :=
  if dbStore && ls.run_id.isNone then
    let res := begin_run ls.table u.destination u.params u.label u.now
    { table := res.1, run_id := some res.2 }
  else ls

/-- The inner rebuild loop of `_execute_destination_runs`, recursing over
the remaining `range(2)` attempt indices. Transport-level losses
(`TargetClosedError`, disposed-context `PatchrightError`) rebuild and
continue; `SessionRefreshError` records itself in `last_session_error` and
continues; a backend failure or success breaks; other exceptions
propagate. -/
def fetchLoop (dbStore : Bool) (u : UnitSpec) : List Nat → Bool → LoopState → LoopExit
  | [], lastSE, ls => if lastSE then .sessionExhausted ls else .exhaustedNoError ls
  | i :: rest, lastSE, ls =>
    let ls' := beginIfNeeded dbStore u ls
    match u.attempts i with
    | .success => .gotResults ls'
    | .targetClosed => fetchLoop dbStore u rest lastSE ls'
    | .contextDisposed => fetchLoop dbStore u rest lastSE ls'
    | .patchrightOther msg => .raisedOther msg ls'
    | .otherError msg => .raisedOther msg ls'
    | .sessionRefresh => fetchLoop dbStore u rest true ls'
    | .backendUnavailable s b => .backend s b lastSE ls'

/-- Orchestrator state threaded between units. -/
structure OrchState where
  table : SearchRunsTable
  consecutive_backend_failures : Nat

/-- Result of processing one unit: continue the sweep, or abort it with a
raised error message. -/
inductive StepResult where
  | continued (st : OrchState)
  | aborted (st : OrchState) (msg : String)

/-- The state carried by a step result. -/
def StepResult.state : StepResult → OrchState
  | .continued st => st
  | .aborted st _ => st

/-- Whether the step aborted the sweep. -/
def StepResult.isAborted : StepResult → Bool
  | .continued _ => false
  | .aborted _ _ => true

/-- `RuntimeError(f"Unable to recover session while fetching {key}")`. -/
def sessionFatalMsg (u : UnitSpec) : String :=
  "Unable to recover session while fetching " ++ u.destination.key

/-- `f"Properties API returned HTTP {status}: {body}"`. -/
def backendReason (status : Nat) (body : String) : String :=
  "Properties API returned HTTP " ++ toString status ++ ": " ++ body

/-- `if db_store and run_id is not None: await db_store.mark_run_failed(...)`. -/
def markIfRun (dbStore : Bool) (ls : LoopState) (reason now : String) : SearchRunsTable :=
  match dbStore, ls.run_id with
  | true, some rid => mark_run_failed ls.table rid reason now
  | _, _ => ls.table

/-- The non-skip part of the per-unit body: run the inner loop, then route
its exit through the post-loop logic — fatal session error, backend
failure counting with the threshold check, or the success persistence path
(`store_run_payload`, `save_hotels`/`save_rates` on their own tables,
`finalize_run`) which resets the backend-failure counter. -/
def processUnitFetch (dbStore : Bool) (threshold : Nat) (u : UnitSpec)
    (st : OrchState) : StepResult :=
  match fetchLoop dbStore u [0, 1] false { table := st.table, run_id := none } with
  | .gotResults ls =>
      let table :=
        match dbStore, ls.run_id with
        | true, some rid =>
            finalize_run
              (store_run_payload ls.table rid u.results.request_id u.results.context u.now)
              rid u.results.hotel_count u.results.rate_count u.results.request_id
              u.results.context u.now
        | _, _ => ls.table
      .continued { table := table, consecutive_backend_failures := 0 }
  | .backend status body lastSE ls =>
      if lastSE then
        .aborted { table := markIfRun dbStore ls (sessionFatalMsg u) u.now
                 , consecutive_backend_failures := st.consecutive_backend_failures }
          (sessionFatalMsg u)
      else
        let table := markIfRun dbStore ls (backendReason status body) u.now
        let c := st.consecutive_backend_failures + 1
        if threshold ≤ c then
          .aborted { table := table, consecutive_backend_failures := c }
            ("Aborting sweep after " ++ toString c ++ " back-to-back API failures")
        else
          .continued { table := table, consecutive_backend_failures := c }
  | .sessionExhausted ls =>
      .aborted { table := markIfRun dbStore ls (sessionFatalMsg u) u.now
               , consecutive_backend_failures := st.consecutive_backend_failures }
        (sessionFatalMsg u)
  | .exhaustedNoError ls =>
      .aborted { table := markIfRun dbStore ls "AssertionError" u.now
               , consecutive_backend_failures := 0 }
        "AssertionError"
  | .raisedOther msg ls =>
      .aborted { table := markIfRun dbStore ls msg u.now
               , consecutive_backend_failures := st.consecutive_backend_failures }
        msg

/-- The whole per-unit body: the resume check (`skip` when the latest
stored run for the unit's signature is complete) followed by the fetch. -/
def processUnit (dbStore : Bool) (threshold : Nat) (existing : Option SearchRunRow)
    (u : UnitSpec) (st : OrchState) : StepResult :=
  match existing with
  | some r =>
      if r.status == "complete" then .continued st
      else processUnitFetch dbStore threshold u st
  | none => processUnitFetch dbStore threshold u st

/-- How a whole sweep ends. -/
inductive SweepOutcome where
  | completed (st : OrchState)
  | aborted (st : OrchState) (msg : String)

/-- Whether the sweep aborted. -/
def SweepOutcome.isAborted : SweepOutcome → Bool
  | .completed _ => false
  | .aborted _ _ => true

/-- The `for scheduled in runs` loop of `_execute_destination_runs`: units
run in order; an abort unwinds the sweep, skipping every later unit. -/
def runUnits (dbStore : Bool) (threshold : Nat) :
    List (Option SearchRunRow × UnitSpec) → OrchState → SweepOutcome
  | [], st => .completed st
  | (existing, u) :: rest, st =>
    match processUnit dbStore threshold existing u st with
    | .continued st2 => runUnits dbStore threshold rest st2
    | .aborted st2 msg => .aborted st2 msg

/-! ### Loop-unfolding helpers -/

/-- With the store enabled and no run begun yet, the inner loop begins
exactly one run (on its first iteration) whatever the attempts do: every
exit carries the table `begin_run` produced and its run id. -/
theorem fetchLoop_state_dbStore (u : UnitSpec) (T : SearchRunsTable) :
    (fetchLoop true u [0, 1] false { table := T, run_id := none }).state
      = { table := (begin_run T u.destination u.params u.label u.now).1
        , run_id := some (begin_run T u.destination u.params u.label u.now).2 } := by
  cases h0 : u.attempts 0 <;> cases h1 : u.attempts 1 <;>
    simp [fetchLoop, h0, h1, beginIfNeeded, LoopExit.state]

theorem filter_sig_map_preserve (p : String → Bool) (f : SearchRunRow → SearchRunRow)
    (hf : ∀ r, (f r).search_signature = r.search_signature) (rows : List SearchRunRow) :
    ((rows.map f).filter (fun r => p r.search_signature)).length
      = (rows.filter (fun r => p r.search_signature)).length := by
  induction rows with
  | nil => rfl
  | cons r rest ih =>
    simp only [List.map_cons, List.filter_cons, hf r]
    cases hp : p r.search_signature <;> simp [hp, ih]

theorem countSig_mark_run_failed (s : String) (t : SearchRunsTable) (rid : Nat)
    (reason now : String) :
    countSig s (mark_run_failed t rid reason now) = countSig s t := by
  unfold countSig mark_run_failed
  exact filter_sig_map_preserve (fun sg => sg == s) _
    (fun r => by cases hif : r.id == rid <;> simp [hif]) t.rows

theorem countSig_finalize_run (s : String) (t : SearchRunsTable) (rid : Nat)
    (th tr : Int) (req ctx : Option String) (now : String) :
    countSig s (finalize_run t rid th tr req ctx now) = countSig s t := by
  unfold countSig finalize_run
  exact filter_sig_map_preserve (fun sg => sg == s) _
    (fun r => by cases hif : r.id == rid <;> simp [hif]) t.rows

theorem countSig_store_run_payload (s : String) (t : SearchRunsTable) (rid : Nat)
    (req ctx : Option String) (now : String) :
    countSig s (store_run_payload t rid req ctx now) = countSig s t := by
  unfold countSig store_run_payload
  exact filter_sig_map_preserve (fun sg => sg == s) _
    (fun r => by cases hif : r.id == rid <;> simp [hif]) t.rows

theorem length_mark_run_failed (t : SearchRunsTable) (rid : Nat) (reason now : String) :
    (mark_run_failed t rid reason now).rows.length = t.rows.length := by
  simp [mark_run_failed]

theorem length_finalize_run (t : SearchRunsTable) (rid : Nat) (th tr : Int)
    (req ctx : Option String) (now : String) :
    (finalize_run t rid th tr req ctx now).rows.length = t.rows.length := by
  simp [finalize_run]

theorem length_store_run_payload (t : SearchRunsTable) (rid : Nat)
    (req ctx : Option String) (now : String) :
    (store_run_payload t rid req ctx now).rows.length = t.rows.length := by
  simp [store_run_payload]

theorem length_begin_run (t : SearchRunsTable) (d : Destination) (p : SearchParams)
    (lab : Option String) (now : String) :
    (begin_run t d p lab now).1.rows.length = t.rows.length + 1 := by
  simp [begin_run]

theorem countSig_begin_run (s : String) (t : SearchRunsTable) (d : Destination)
    (p : SearchParams) (lab : Option String) (now : String) :
    countSig s (begin_run t d p lab now).1
      = countSig s t
        + (if signature d.key lab p (p.program_filter.getD []) = s then 1 else 0) := by
  unfold countSig begin_run
  simp only [List.filter_append, List.length_append]
  congr 1
  · exact filter_sig_map_preserve (fun sg => sg == s) _
      (fun r => by unfold demoteRunning; split <;> rfl) t.rows
  · by_cases h : signature d.key lab p (p.program_filter.getD []) = s
    · simp [newRunRow, h]
    · simp [newRunRow, h]

theorem countSig_markIfRun (s : String) (dbStore : Bool) (ls : LoopState)
    (reason now : String) :
    countSig s (markIfRun dbStore ls reason now) = countSig s ls.table := by
  unfold markIfRun
  cases dbStore <;> cases h : ls.run_id <;> simp [countSig_mark_run_failed]

theorem length_markIfRun (dbStore : Bool) (ls : LoopState) (reason now : String) :
    (markIfRun dbStore ls reason now).rows.length = ls.table.rows.length := by
  unfold markIfRun
  cases dbStore <;> cases h : ls.run_id <;> simp [length_mark_run_failed]

theorem processUnit_not_complete (dbStore : Bool) (threshold : Nat)
    (existing : Option SearchRunRow) (u : UnitSpec) (st : OrchState)
    (hnc : ∀ r, existing = some r → r.status ≠ "complete") :
    processUnit dbStore threshold existing u st = processUnitFetch dbStore threshold u st := by
  cases existing with
  | none => rfl
  | some r =>
    have h : (r.status == "complete") = false := beq_eq_false_iff_ne.mpr (hnc r rfl)
    simp [processUnit, h]

theorem processUnitFetch_backend0 (dbStore : Bool) (threshold : Nat) (u : UnitSpec)
    (st : OrchState) (s : Nat) (b : String)
    (h : u.attempts 0 = .backendUnavailable s b) :
    processUnitFetch dbStore threshold u st
      = (if threshold ≤ st.consecutive_backend_failures + 1 then
          StepResult.aborted
            { table := markIfRun dbStore
                (beginIfNeeded dbStore u { table := st.table, run_id := none })
                (backendReason s b) u.now
            , consecutive_backend_failures := st.consecutive_backend_failures + 1 }
            ("Aborting sweep after " ++ toString (st.consecutive_backend_failures + 1)
              ++ " back-to-back API failures")
        else StepResult.continued
            { table := markIfRun dbStore
                (beginIfNeeded dbStore u { table := st.table, run_id := none })
                (backendReason s b) u.now
            , consecutive_backend_failures := st.consecutive_backend_failures + 1 }) := by
  have hloop : fetchLoop dbStore u [0, 1] false { table := st.table, run_id := none }
      = .backend s b false
          (beginIfNeeded dbStore u { table := st.table, run_id := none }) := by
    simp [fetchLoop, h]
  unfold processUnitFetch
  rw [hloop]
  rfl

theorem processUnitFetch_success0 (dbStore : Bool) (threshold : Nat) (u : UnitSpec)
    (st : OrchState) (h : u.attempts 0 = .success) :
    ∃ st2, processUnitFetch dbStore threshold u st = .continued st2
      ∧ st2.consecutive_backend_failures = 0 := by
  have hloop : fetchLoop dbStore u [0, 1] false { table := st.table, run_id := none }
      = .gotResults (beginIfNeeded dbStore u { table := st.table, run_id := none }) := by
    simp [fetchLoop, h]
  unfold processUnitFetch
  rw [hloop]
  exact ⟨_, rfl, rfl⟩

theorem processUnitFetch_sessionRefresh_twice (dbStore : Bool) (threshold : Nat)
    (u : UnitSpec) (st : OrchState) (h0 : u.attempts 0 = .sessionRefresh)
    (h1 : u.attempts 1 = .sessionRefresh) :
    ∃ st2, processUnitFetch dbStore threshold u st = .aborted st2 (sessionFatalMsg u) := by
  have hloop : fetchLoop dbStore u [0, 1] false { table := st.table, run_id := none }
      = .sessionExhausted
          (beginIfNeeded dbStore u
            (beginIfNeeded dbStore u { table := st.table, run_id := none })) := by
    simp [fetchLoop, h0, h1]
  unfold processUnitFetch
  rw [hloop]
  exact ⟨_, rfl⟩

theorem processUnitFetch_sessionRefresh_recover (dbStore : Bool) (threshold : Nat)
    (u : UnitSpec) (st : OrchState) (h0 : u.attempts 0 = .sessionRefresh)
    (h1 : u.attempts 1 = .success) :
    ∃ st2, processUnitFetch dbStore threshold u st = .continued st2 := by
  have hloop : fetchLoop dbStore u [0, 1] false { table := st.table, run_id := none }
      = .gotResults
          (beginIfNeeded dbStore u
            (beginIfNeeded dbStore u { table := st.table, run_id := none })) := by
    simp [fetchLoop, h0, h1]
  unfold processUnitFetch
  rw [hloop]
  exact ⟨_, rfl⟩

theorem runUnits_cons_continued (dbStore : Bool) (threshold : Nat)
    (existing : Option SearchRunRow) (u : UnitSpec)
    (rest : List (Option SearchRunRow × UnitSpec)) (st st2 : OrchState)
    (h : processUnit dbStore threshold existing u st = .continued st2) :
    runUnits dbStore threshold ((existing, u) :: rest) st
      = runUnits dbStore threshold rest st2 := by
  simp [runUnits, h]

theorem runUnits_cons_aborted (dbStore : Bool) (threshold : Nat)
    (existing : Option SearchRunRow) (u : UnitSpec)
    (rest : List (Option SearchRunRow × UnitSpec)) (st st2 : OrchState) (msg : String)
    (h : processUnit dbStore threshold existing u st = .aborted st2 msg) :
    runUnits dbStore threshold ((existing, u) :: rest) st = .aborted st2 msg := by
  simp [runUnits, h]

theorem runUnits_step_backend_cont (dbStore : Bool) (threshold : Nat) (u : UnitSpec)
    (rest : List (Option SearchRunRow × UnitSpec)) (st : OrchState) (s : Nat) (b : String)
    (h : u.attempts 0 = .backendUnavailable s b)
    (hlt : ¬ threshold ≤ st.consecutive_backend_failures + 1) :
    ∃ st2, runUnits dbStore threshold ((none, u) :: rest) st
        = runUnits dbStore threshold rest st2
      ∧ st2.consecutive_backend_failures = st.consecutive_backend_failures + 1 := by
  have p : processUnit dbStore threshold none u st
      = .continued
          { table := markIfRun dbStore
              (beginIfNeeded dbStore u { table := st.table, run_id := none })
              (backendReason s b) u.now
          , consecutive_backend_failures := st.consecutive_backend_failures + 1 } := by
    rw [processUnit_not_complete dbStore threshold none u st
          (fun r hr => Option.noConfusion hr),
        processUnitFetch_backend0 dbStore threshold u st s b h, if_neg hlt]
  exact ⟨_, runUnits_cons_continued dbStore threshold none u rest st _ p, rfl⟩

theorem runUnits_step_backend_abort (dbStore : Bool) (threshold : Nat) (u : UnitSpec)
    (rest : List (Option SearchRunRow × UnitSpec)) (st : OrchState) (s : Nat) (b : String)
    (h : u.attempts 0 = .backendUnavailable s b)
    (hge : threshold ≤ st.consecutive_backend_failures + 1) :
    (runUnits dbStore threshold ((none, u) :: rest) st).isAborted = true := by
  have p : processUnit dbStore threshold none u st
      = .aborted
          { table := markIfRun dbStore
              (beginIfNeeded dbStore u { table := st.table, run_id := none })
              (backendReason s b) u.now
          , consecutive_backend_failures := st.consecutive_backend_failures + 1 }
          ("Aborting sweep after " ++ toString (st.consecutive_backend_failures + 1)
            ++ " back-to-back API failures") := by
    rw [processUnit_not_complete dbStore threshold none u st
          (fun r hr => Option.noConfusion hr),
        processUnitFetch_backend0 dbStore threshold u st s b h, if_pos hge]
  rw [runUnits_cons_aborted dbStore threshold none u rest st _ _ p]
  rfl

theorem runUnits_step_success (dbStore : Bool) (threshold : Nat) (u : UnitSpec)
    (rest : List (Option SearchRunRow × UnitSpec)) (st : OrchState)
    (h : u.attempts 0 = .success) :
    ∃ st2, runUnits dbStore threshold ((none, u) :: rest) st
        = runUnits dbStore threshold rest st2
      ∧ st2.consecutive_backend_failures = 0 := by
  obtain ⟨st2, hp, hc⟩ := processUnitFetch_success0 dbStore threshold u st h
  have p : processUnit dbStore threshold none u st = .continued st2 := by
    rw [processUnit_not_complete dbStore threshold none u st
          (fun r hr => Option.noConfusion hr)]
    exact hp
  exact ⟨st2, runUnits_cons_continued dbStore threshold none u rest st st2 p, hc⟩

/-- With the store enabled and a non-skipped unit, the per-unit body grows
the `search_runs` table by exactly one row — one `begin_run` — carrying the
unit's signature, whatever the fetch attempts do and however the unit
ends. -/
theorem processUnitFetch_state_table (threshold : Nat) (u : UnitSpec) (st : OrchState) :
    (processUnitFetch true threshold u st).state.table.rows.length
        = st.table.rows.length + 1
    ∧ ∀ s, countSig s (processUnitFetch true threshold u st).state.table
        = countSig s st.table
          + (if signature u.destination.key u.label u.params
                (u.params.program_filter.getD []) = s
             then 1 else 0) := by
  have hstate := fetchLoop_state_dbStore u st.table
  unfold processUnitFetch
  cases hE : fetchLoop true u [0, 1] false { table := st.table, run_id := none } with
  | gotResults ls =>
      rw [hE] at hstate
      simp only [LoopExit.state] at hstate
      subst hstate
      constructor
      · simp [StepResult.state, length_finalize_run, length_store_run_payload,
          length_begin_run]
      · intro s
        simp [StepResult.state, countSig_finalize_run, countSig_store_run_payload,
          countSig_begin_run]
  | backend status body lastSE ls =>
      rw [hE] at hstate
      simp only [LoopExit.state] at hstate
      subst hstate
      constructor
      · cases lastSE <;>
          by_cases hth : threshold ≤ st.consecutive_backend_failures + 1 <;>
          simp [hth, StepResult.state, length_markIfRun, length_begin_run]
      · intro s
        cases lastSE <;>
          by_cases hth : threshold ≤ st.consecutive_backend_failures + 1 <;>
          simp [hth, StepResult.state, countSig_markIfRun, countSig_begin_run]
  | sessionExhausted ls =>
      rw [hE] at hstate
      simp only [LoopExit.state] at hstate
      subst hstate
      refine ⟨by simp [StepResult.state, length_markIfRun, length_begin_run], ?_⟩
      intro s
      simp [StepResult.state, countSig_markIfRun, countSig_begin_run]
  | exhaustedNoError ls =>
      rw [hE] at hstate
      simp only [LoopExit.state] at hstate
      subst hstate
      refine ⟨by simp [StepResult.state, length_markIfRun, length_begin_run], ?_⟩
      intro s
      simp [StepResult.state, countSig_markIfRun, countSig_begin_run]
  | raisedOther msg ls =>
      rw [hE] at hstate
      simp only [LoopExit.state] at hstate
      subst hstate
      refine ⟨by simp [StepResult.state, length_markIfRun, length_begin_run], ?_⟩
      intro s
      simp [StepResult.state, countSig_markIfRun, countSig_begin_run]

/-- C3. The consecutive-backend-failure counter: a backend-unavailable
failure increments it by one and aborts the sweep exactly when the
configured threshold is reached; a successful fetch resets it to zero;
with threshold 3, three consecutive backend failures abort the sweep while
a streak interrupted by a success does not. -/
theorem consecutive_backend_failure_policy :
    (∀ (dbStore : Bool) (threshold : Nat) (existing : Option SearchRunRow)
        (u : UnitSpec) (st : OrchState) (s : Nat) (b : String),
        (∀ r, existing = some r → r.status ≠ "complete") →
        u.attempts 0 = .backendUnavailable s b →
        (processUnit dbStore threshold existing u st).state.consecutive_backend_failures
            = st.consecutive_backend_failures + 1
        ∧ ((processUnit dbStore threshold existing u st).isAborted = true
            ↔ threshold ≤ st.consecutive_backend_failures + 1))
    ∧ (∀ (dbStore : Bool) (threshold : Nat) (existing : Option SearchRunRow)
        (u : UnitSpec) (st : OrchState),
        (∀ r, existing = some r → r.status ≠ "complete") →
        u.attempts 0 = .success →
        ∃ st2, processUnit dbStore threshold existing u st = .continued st2
            ∧ st2.consecutive_backend_failures = 0)
    ∧ (∀ (dbStore : Bool) (u1 u2 u3 : UnitSpec) (st : OrchState)
        (s1 : Nat) (b1 : String) (s2 : Nat) (b2 : String) (s3 : Nat) (b3 : String),
        st.consecutive_backend_failures = 0 →
        u1.attempts 0 = .backendUnavailable s1 b1 →
        u2.attempts 0 = .backendUnavailable s2 b2 →
        u3.attempts 0 = .backendUnavailable s3 b3 →
        (runUnits dbStore 3 [(none, u1), (none, u2), (none, u3)] st).isAborted = true)
    ∧ (∀ (dbStore : Bool) (u1 u2 u3 u4 : UnitSpec) (st : OrchState)
        (s1 : Nat) (b1 : String) (s2 : Nat) (b2 : String) (s4 : Nat) (b4 : String),
        st.consecutive_backend_failures = 0 →
        u1.attempts 0 = .backendUnavailable s1 b1 →
        u2.attempts 0 = .backendUnavailable s2 b2 →
        u3.attempts 0 = .success →
        u4.attempts 0 = .backendUnavailable s4 b4 →
        ∃ st2, runUnits dbStore 3 [(none, u1), (none, u2), (none, u3), (none, u4)] st
            = .completed st2) := by
  refine ⟨?_, ?_, ?_, ?_⟩
  · intro dbStore threshold existing u st s b hnc ha
    rw [processUnit_not_complete dbStore threshold existing u st hnc,
        processUnitFetch_backend0 dbStore threshold u st s b ha]
    by_cases hth : threshold ≤ st.consecutive_backend_failures + 1
    · simp [hth, StepResult.state, StepResult.isAborted]
    · simp [hth, StepResult.state, StepResult.isAborted]
  · intro dbStore threshold existing u st hnc ha
    rw [processUnit_not_complete dbStore threshold existing u st hnc]
    exact processUnitFetch_success0 dbStore threshold u st ha
  · intro dbStore u1 u2 u3 st s1 b1 s2 b2 s3 b3 h0 h1 h2 h3
    obtain ⟨st1, e1, c1⟩ := runUnits_step_backend_cont dbStore 3 u1
      [(none, u2), (none, u3)] st s1 b1 h1 (by rw [h0]; norm_num)
    obtain ⟨st2, e2, c2⟩ := runUnits_step_backend_cont dbStore 3 u2
      [(none, u3)] st1 s2 b2 h2 (by rw [c1, h0]; norm_num)
    rw [e1, e2]
    exact runUnits_step_backend_abort dbStore 3 u3 [] st2 s3 b3 h3
      (by rw [c2, c1, h0])
  · intro dbStore u1 u2 u3 u4 st s1 b1 s2 b2 s4 b4 h0 h1 h2 h3 h4
    obtain ⟨st1, e1, c1⟩ := runUnits_step_backend_cont dbStore 3 u1
      [(none, u2), (none, u3), (none, u4)] st s1 b1 h1 (by rw [h0]; norm_num)
    obtain ⟨st2, e2, c2⟩ := runUnits_step_backend_cont dbStore 3 u2
      [(none, u3), (none, u4)] st1 s2 b2 h2 (by rw [c1, h0]; norm_num)
    obtain ⟨st3, e3, c3⟩ := runUnits_step_success dbStore 3 u3 [(none, u4)] st2 h3
    obtain ⟨st4, e4, c4⟩ := runUnits_step_backend_cont dbStore 3 u4 [] st3 s4 b4 h4
      (by rw [c3]; norm_num)
    rw [e1, e2, e3, e4]
    exact ⟨st4, rfl⟩

/-- Unit whose every fetch attempt hits a backend rejection. -/
def unitB : UnitSpec :=
  { destination := destA, params := paramsA, label := some "2026-01-15"
  , attempts := fun _ => .backendUnavailable 503 "unavailable"
  , results := {}, now := "t2" }

/-- C3 witness: three consecutive backend failures with threshold 3 abort
the sweep. -/
theorem consecutive_backend_failure_policy_witness :
    (runUnits true 3 [(none, unitB), (none, unitB), (none, unitB)]
        { table := tableA, consecutive_backend_failures := 0 }).isAborted = true :=
  consecutive_backend_failure_policy.2.2.1 true unitB unitB unitB
    { table := tableA, consecutive_backend_failures := 0 }
    503 "unavailable" 503 "unavailable" 503 "unavailable" rfl rfl rfl rfl

/-- C6. With resume enabled: a unit whose latest stored run is complete is
skipped with the orchestrator state (and so the `search_runs` table)
untouched; a unit whose latest run is failed — or has no stored run — gets
exactly one new run row for its signature (the table grows by exactly one
row, that row carrying the signature) and the fetch is attempted (a
successful first attempt continues the sweep). -/
theorem resume_skip_and_retry :
    (∀ (dbStore : Bool) (threshold : Nat) (r : SearchRunRow) (u : UnitSpec)
        (st : OrchState), r.status = "complete" →
        processUnit dbStore threshold (some r) u st = .continued st)
    ∧ (∀ (threshold : Nat) (existing : Option SearchRunRow) (u : UnitSpec)
        (st : OrchState),
        (existing = none ∨ ∃ r, existing = some r ∧ r.status = "failed") →
        (processUnit true threshold existing u st).state.table.rows.length
            = st.table.rows.length + 1
        ∧ countSig (signature u.destination.key u.label u.params
              (u.params.program_filter.getD []))
            (processUnit true threshold existing u st).state.table
          = countSig (signature u.destination.key u.label u.params
              (u.params.program_filter.getD [])) st.table + 1)
    ∧ (∀ (threshold : Nat) (existing : Option SearchRunRow) (u : UnitSpec)
        (st : OrchState),
        (existing = none ∨ ∃ r, existing = some r ∧ r.status = "failed") →
        u.attempts 0 = .success →
        ∃ st2, processUnit true threshold existing u st = .continued st2) := by
  have hnc_of : ∀ (existing : Option SearchRunRow),
      (existing = none ∨ ∃ r, existing = some r ∧ r.status = "failed") →
      ∀ r, existing = some r → r.status ≠ "complete" := by
    intro existing hne r hr
    rcases hne with h | ⟨r', hr', hst⟩
    · rw [h] at hr; exact Option.noConfusion hr
    · rw [hr'] at hr
      injection hr with hh
      rw [← hh, hst]
      decide
  refine ⟨?_, ?_, ?_⟩
  · intro dbStore threshold r u st hst
    simp [processUnit, hst]
  · intro threshold existing u st hne
    rw [processUnit_not_complete true threshold existing u st (hnc_of existing hne)]
    obtain ⟨hl, hc⟩ := processUnitFetch_state_table threshold u st
    refine ⟨hl, ?_⟩
    rw [hc]
    simp
  · intro threshold existing u st hne ha
    rw [processUnit_not_complete true threshold existing u st (hnc_of existing hne)]
    obtain ⟨st2, hp, _⟩ := processUnitFetch_success0 true threshold u st ha
    exact ⟨st2, hp⟩

/-- Unit whose fetch succeeds immediately. -/
def unitA : UnitSpec :=
  { destination := destA, params := paramsA, label := some "2026-01-15"
  , attempts := fun _ => .success, results := {}, now := "t3" }

/-- The latest run for `unitA`'s signature, already complete. -/
def completeRowA : SearchRunRow := { runningRowA with status := "complete" }

/-- C6 witness: a complete latest run is skipped, leaving the state — and
thus the run table — exactly as it was. -/
theorem resume_skip_and_retry_witness :
    processUnit true 3 (some completeRowA) unitA
        { table := tableA, consecutive_backend_failures := 0 }
      = .continued { table := tableA, consecutive_backend_failures := 0 } :=
  resume_skip_and_retry.1 true 3 completeRowA unitA
    { table := tableA, consecutive_backend_failures := 0 } rfl

theorem post_properties_unauthorized (response : HttpResponse)
    (hok : response.ok = false)
    (hst : response.status = 401 ∨ response.status = 403) :
    post_properties response
      = .error (.unauthorizedSearch response.status response.body) := by
  simp [post_properties, hok, hst]

/-- The inner loop consults its attempt script only at the indices it
iterates over. -/
theorem fetchLoop_congr (dbStore : Bool) (d : Destination) (p : SearchParams)
    (lab : Option String) (res : FetchResults) (now : String)
    (a a' : Nat → FetchOutcome) :
    ∀ (idxs : List Nat) (lastSE : Bool) (ls : LoopState),
      (∀ i ∈ idxs, a i = a' i) →
      fetchLoop dbStore
          { destination := d, params := p, label := lab, attempts := a
          , results := res, now := now } idxs lastSE ls
        = fetchLoop dbStore
            { destination := d, params := p, label := lab, attempts := a'
            , results := res, now := now } idxs lastSE ls := by
  intro idxs
  induction idxs with
  | nil => intro _ _ _; rfl
  | cons i rest ih =>
    intro lastSE ls hagree
    have h0 : a i = a' i := hagree i (List.mem_cons_self i rest)
    have hrest : ∀ j ∈ rest, a j = a' j :=
      fun j hj => hagree j (List.mem_cons_of_mem i hj)
    simp only [fetchLoop]
    rw [← h0]
    cases ha : a i with
    | success => rfl
    | targetClosed => exact ih lastSE _ hrest
    | contextDisposed => exact ih lastSE _ hrest
    | patchrightOther msg => rfl
    | otherError msg => rfl
    | sessionRefresh => exact ih true _ hrest
    | backendUnavailable s b => rfl

/-- The per-unit body consults only the first two attempts: the rebuild
loop is bounded at 2. -/
theorem processUnit_congr_attempts (dbStore : Bool) (threshold : Nat)
    (existing : Option SearchRunRow) (st : OrchState) (d : Destination)
    (p : SearchParams) (lab : Option String) (res : FetchResults) (now : String)
    (a a' : Nat → FetchOutcome) (h0 : a 0 = a' 0) (h1 : a 1 = a' 1) :
    processUnit dbStore threshold existing
        { destination := d, params := p, label := lab, attempts := a
        , results := res, now := now } st
      = processUnit dbStore threshold existing
          { destination := d, params := p, label := lab, attempts := a'
          , results := res, now := now } st := by
  have hagree : ∀ i ∈ [0, 1], a i = a' i := by
    intro i hi
    rcases List.mem_cons.mp hi with rfl | hi2
    · exact h0
    · rcases List.mem_cons.mp hi2 with rfl | hi3
      · exact h1
      · cases hi3
  have hl := fetchLoop_congr dbStore d p lab res now a a' [0, 1] false
    { table := st.table, run_id := none } hagree
  have hfetch : processUnitFetch dbStore threshold
      { destination := d, params := p, label := lab, attempts := a
      , results := res, now := now } st
      = processUnitFetch dbStore threshold
          { destination := d, params := p, label := lab, attempts := a'
          , results := res, now := now } st := by
    unfold processUnitFetch
    rw [hl]
    cases fetchLoop dbStore
        { destination := d, params := p, label := lab, attempts := a'
        , results := res, now := now } [0, 1] false
        { table := st.table, run_id := none } <;> rfl
  cases existing with
  | none => exact hfetch
  | some r =>
    by_cases hc : (r.status == "complete") = true
    · simp [processUnit, hc]
    · simp only [processUnit, hc, Bool.false_eq_true, if_false]
      exact hfetch

/-- C7. Session-refresh exhaustion is fatal: (1) the Session Client, after
its three internal token-refresh attempts all hit authorization-denied
responses, raises the distinguished session-refresh error; (2) on a unit
whose first two attempts both end in that error, the orchestrator aborts
the entire sweep with the unable-to-recover message — skipping every later
unit; (3) a session-refresh error followed by a successful retry after one
rebuild continues the sweep; (4) the inner rebuild loop is bounded at 2
attempts — the unit's outcome depends only on attempts 0 and 1. -/
theorem session_refresh_exhaustion_policy :
    (∀ (env : PageFetchEnv) (token : String) (flag : Bool),
        (∀ i, env.warmup i = none) →
        (∀ i, (env.post i).ok = false
          ∧ ((env.post i).status = 401 ∨ (env.post i).status = 403)) →
        (∀ i, ∃ tok, env.refreshToken i = .ok tok) →
        fetch_properties_page env token flag
          = .sessionRefreshError "Search request failed after refreshing session")
    ∧ (∀ (dbStore : Bool) (threshold : Nat) (existing : Option SearchRunRow)
        (u : UnitSpec) (st : OrchState) (rest : List (Option SearchRunRow × UnitSpec)),
        (∀ r, existing = some r → r.status ≠ "complete") →
        u.attempts 0 = .sessionRefresh → u.attempts 1 = .sessionRefresh →
        ∃ st2, runUnits dbStore threshold ((existing, u) :: rest) st
            = .aborted st2 (sessionFatalMsg u))
    ∧ (∀ (dbStore : Bool) (threshold : Nat) (existing : Option SearchRunRow)
        (u : UnitSpec) (st : OrchState),
        (∀ r, existing = some r → r.status ≠ "complete") →
        u.attempts 0 = .sessionRefresh → u.attempts 1 = .success →
        ∃ st2, processUnit dbStore threshold existing u st = .continued st2)
    ∧ (∀ (dbStore : Bool) (threshold : Nat) (existing : Option SearchRunRow)
        (st : OrchState) (d : Destination) (p : SearchParams) (lab : Option String)
        (res : FetchResults) (now : String) (a a' : Nat → FetchOutcome),
        a 0 = a' 0 → a 1 = a' 1 →
        processUnit dbStore threshold existing
            { destination := d, params := p, label := lab, attempts := a
            , results := res, now := now } st
          = processUnit dbStore threshold existing
              { destination := d, params := p, label := lab, attempts := a'
              , results := res, now := now } st) := by
  refine ⟨?_, ?_, ?_, ?_⟩
  · intro env token flag hw hpost htok
    obtain ⟨t0, h0⟩ := htok 0
    obtain ⟨t1, h1⟩ := htok 1
    obtain ⟨t2, h2⟩ := htok 2
    have hwu : ∀ (i : Nat) (bb : Bool), (if bb then env.warmup i else none) = none := by
      intro i bb; cases bb <;> simp [hw i]
    have hp0 := post_properties_unauthorized (env.post 0) (hpost 0).1 (hpost 0).2
    have hp1 := post_properties_unauthorized (env.post 1) (hpost 1).1 (hpost 1).2
    have hp2 := post_properties_unauthorized (env.post 2) (hpost 2).1 (hpost 2).2
    unfold fetch_properties_page
    simp only [fetchPageLoop, hwu, hp0, hp1, hp2, h0, h1, h2, if_true, hw, ite_self]
  · intro dbStore threshold existing u st rest hnc h0 h1
    obtain ⟨st2, hp⟩ :=
      processUnitFetch_sessionRefresh_twice dbStore threshold u st h0 h1
    have p : processUnit dbStore threshold existing u st
        = .aborted st2 (sessionFatalMsg u) := by
      rw [processUnit_not_complete dbStore threshold existing u st hnc]
      exact hp
    exact ⟨st2, runUnits_cons_aborted dbStore threshold existing u rest st st2 _ p⟩
  · intro dbStore threshold existing u st hnc h0 h1
    rw [processUnit_not_complete dbStore threshold existing u st hnc]
    exact processUnitFetch_sessionRefresh_recover dbStore threshold u st h0 h1
  · intro dbStore threshold existing st d p lab res now a a' h0 h1
    exact processUnit_congr_attempts dbStore threshold existing st d p lab res now
      a a' h0 h1

/-- A page-fetch environment whose every POST is authorization-denied and
whose warm-up never captures anything. -/
def envA : PageFetchEnv :=
  { warmup := fun _ => none
  , post := fun _ => { ok := false, status := 401, body := "denied" }
  , refreshToken := fun _ => .ok "tok" }

/-- C7 witness: exhausting the three refresh attempts raises the
session-refresh error. -/
theorem session_refresh_exhaustion_policy_witness :
    fetch_properties_page envA "acct" true
      = .sessionRefreshError "Search request failed after refreshing session" :=
  session_refresh_exhaustion_policy.1 envA "acct" true (fun _ => rfl)
    (fun _ => ⟨rfl, Or.inl rfl⟩) (fun _ => ⟨"tok", rfl⟩)

/-! ### C4: `fetch_latest_runs_bulk` -/

/-- Python dict read, modelled on an insertion-ordered association list. -/
def lookupA {α : Type} : List (String × α) → String → Option α
  | [], _ => none
  | (k, v) :: rest, key => if k == key then some v else lookupA rest key

/-- `if key not in records: records[key] = value` — insert at the end when
absent. -/
def insertIfAbsent {α : Type} (m : List (String × α)) (k : String) (v : α) :
    List (String × α) :=
  if (lookupA m k).isSome then m else m ++ [(k, v)]

/-- Left-biased choice on `Option`. -/
def orO {α : Type} : Option α → Option α → Option α
  | some v, _ => some v
  | none, b => b

/-- Maximum of a list of strings (SQL `MAX` over the ISO `started_at`
text), `none` on the empty list. -/
def maxOpt : List String → Option String
  | [] => none
  | s :: rest =>
    match maxOpt rest with
    | none => some s
    | some m => some (max s m)

/-- `MAX(started_at) ... GROUP BY search_signature` for one signature. -/
def maxStarted (rows : List SearchRunRow) (sig : String) : Option String :=
  maxOpt ((rows.filter (fun r => r.search_signature == sig)).map
    (fun r => r.started_at))

/-- `SqliteStore._SQLITE_PARAMETER_LIMIT`. -/
def SQLITE_PARAMETER_LIMIT : Nat := 900

/-- The chunking loop of `fetch_latest_runs_bulk`: append each signature to
the current chunk, flush when the chunk reaches the parameter limit, flush
the remainder at the end. -/
def chunkAccum (limit : Nat) : List String → List String → List (List String)
  | [], chunk => if chunk.isEmpty then [] else [chunk]
  | s :: rest, chunk =>
      let chunk' := chunk ++ [s]
      if limit ≤ chunk'.length then chunk' :: chunkAccum limit rest []
      else chunkAccum limit rest chunk'

/-- `dict.fromkeys`: deduplicate preserving first-occurrence order. -/
def firstDedup : List String → List String → List String
  | [], _ => []
  | s :: rest, seen =>
      if s ∈ seen then firstDedup rest seen else s :: firstDedup rest (s :: seen)

/-- `list(dict.fromkeys(signatures))`. -/
def ordered_unique (l : List String) : List String := firstDedup l []

/-- The signature of one (destination, params) input pair. -/
def sigOf (label : Option String) (dp : Destination × SearchParams) : String :=
  signature dp.1.key label dp.2 (dp.2.program_filter.getD [])

/-- The `signature_to_key.setdefault(signature, destination.key)` loop:
the first destination key wins per signature. -/
def buildSigToKey (label : Option String) :
    List (Destination × SearchParams) → List (String × String) → List (String × String)
  | [], m => m
  | dp :: rest, m =>
      buildSigToKey label rest
        (if (lookupA m (sigOf label dp)).isSome then m
         else m ++ [(sigOf label dp, dp.1.key)])

/-- The completed signature-to-destination-key map. -/
def signature_to_key (runs : List (Destination × SearchParams))
    (label : Option String) : List (String × String) :=
  buildSigToKey label runs []

/-- `_query_chunk`'s SQL: rows whose signature is in the chunk and whose
`started_at` equals the per-signature maximum, scanned in table order. -/
def queryChunk (rows : List SearchRunRow) (chunk : List String) : List SearchRunRow :=
  rows.filter (fun r =>
    decide (r.search_signature ∈ chunk)
      && (maxStarted rows r.search_signature == some r.started_at))

/-- `key = signature_to_key.get(record.search_signature); if key and key
not in records: records[key] = record`. -/
def addRow (s2k : List (String × String)) (recs : List (String × SearchRunRow))
    (row : SearchRunRow) : List (String × SearchRunRow) :=
  match lookupA s2k row.search_signature with
  | none => recs
  | some key => if key == "" then recs else insertIfAbsent recs key row

/-- One `_query_chunk` call: fetch the chunk's rows and merge them into
`records`. -/
def processChunk (rows : List SearchRunRow) (s2k : List (String × String))
    (recs : List (String × SearchRunRow)) (chunk : List String) :
    List (String × SearchRunRow) :=
  (queryChunk rows chunk).foldl (addRow s2k) recs

/-- `SqliteStore.fetch_latest_runs_bulk` over the `search_runs` rows:
compute signatures, deduplicate preserving order, chunk by the parameter
limit, and merge every chunk's query results into one destination-key-keyed
map. -/
def fetch_latest_runs_bulk (rows : List SearchRunRow)
    (runs : List (Destination × SearchParams)) (label : Option String) :
    List (String × SearchRunRow) :=
  if runs.isEmpty then []
  else
    (chunkAccum SQLITE_PARAMETER_LIMIT
        (ordered_unique (runs.map (sigOf label))) []).foldl
      (processChunk rows (signature_to_key runs label)) []

/-- The table-order list of rows carrying a signature and its maximal
`started_at`. -/
def latestRows (rows : List SearchRunRow) (sig : String) : List SearchRunRow :=
  rows.filter (fun r =>
    r.search_signature == sig && (maxStarted rows sig == some r.started_at))

theorem orO_none_left {α : Type} (b : Option α) : orO none b = b := rfl

theorem orO_some {α : Type} (v : α) (b : Option α) : orO (some v) b = some v := rfl

theorem orO_none_right {α : Type} (a : Option α) : orO a none = a := by
  cases a <;> rfl

theorem orO_assoc {α : Type} (a b c : Option α) :
    orO (orO a b) c = orO a (orO b c) := by
  cases a <;> rfl

theorem orO_some_absorb {α : Type} (a : Option α) (v : α) (c : Option α) :
    orO (orO a (some v)) c = orO a (some v) := by
  cases a <;> rfl

theorem lookupA_append {α : Type} (xs ys : List (String × α)) (k : String) :
    lookupA (xs ++ ys) k = orO (lookupA xs k) (lookupA ys k) := by
  induction xs with
  | nil => rfl
  | cons p rest ih =>
    cases hp : (p.1 == k) <;> simp [lookupA, hp, ih, orO]

theorem lookupA_insertIfAbsent {α : Type} (m : List (String × α)) (k : String)
    (v : α) (key : String) :
    lookupA (insertIfAbsent m k v) key
      = orO (lookupA m key) (if key = k then some v else none) := by
  unfold insertIfAbsent
  cases hm : lookupA m k with
  | some w =>
    simp only [hm, Option.isSome_some, if_true]
    by_cases hk : key = k
    · subst hk; rw [hm]; rfl
    · cases hmk : lookupA m key <;> simp [hmk, hk, orO]
  | none =>
    simp only [hm, Option.isSome_none, Bool.false_eq_true, if_false]
    rw [lookupA_append]
    by_cases hk : key = k
    · subst hk; simp [lookupA]
    · have : lookupA [(k, v)] key = none := by
        simp [lookupA, beq_iff_eq]
        exact fun hc => hk hc.symm
      rw [this]
      simp [hk]

theorem lookupA_eq_none_iff {α : Type} (m : List (String × α)) (k : String) :
    lookupA m k = none ↔ ∀ p ∈ m, p.1 ≠ k := by
  induction m with
  | nil => simp [lookupA]
  | cons p rest ih =>
    cases hp : (p.1 == k)
    · simp only [lookupA, hp, Bool.false_eq_true, if_false, ih, List.mem_cons]
      constructor
      · intro h q hq
        rcases hq with rfl | hq
        · exact beq_eq_false_iff_ne.mp hp
        · exact h q hq
      · intro h q hq
        exact h q (Or.inr hq)
    · simp only [lookupA, hp, if_true]
      constructor
      · intro h; cases h
      · intro h
        exact absurd (beq_iff_eq.mp hp) (h p (List.mem_cons_self p rest))

theorem lookupA_isSome_iff_mem_keys {α : Type} (m : List (String × α)) (k : String) :
    (lookupA m k).isSome = true ↔ k ∈ m.map Prod.fst := by
  induction m with
  | nil => simp [lookupA]
  | cons p rest ih =>
    cases hp : (p.1 == k)
    · simp only [lookupA, hp, Bool.false_eq_true, if_false, ih, List.map_cons,
        List.mem_cons]
      constructor
      · exact fun h => Or.inr h
      · intro h
        rcases h with h | h
        · exact absurd (beq_eq_false_iff_ne.mp hp) (fun hne => hne h.symm)
        · exact h
    · simp only [lookupA, hp, if_true, List.map_cons, List.mem_cons]
      constructor
      · intro _
        exact Or.inl (beq_iff_eq.mp hp).symm
      · intro _
        rfl

theorem keys_nodup_insertIfAbsent {α : Type} (m : List (String × α)) (k : String)
    (v : α) (h : (m.map Prod.fst).Nodup) :
    ((insertIfAbsent m k v).map Prod.fst).Nodup := by
  unfold insertIfAbsent
  cases hm : (lookupA m k).isSome
  · simp only [Bool.false_eq_true, if_false, List.map_append, List.map_cons,
      List.map_nil]
    have hk : k ∉ m.map Prod.fst := by
      intro hc
      rw [(lookupA_isSome_iff_mem_keys m k).mpr hc] at hm
      cases hm
    simp [List.nodup_append, h, hk]
  · simp [h]

theorem maxOpt_mem (l : List String) (m : String) (h : maxOpt l = some m) : m ∈ l := by
  induction l generalizing m with
  | nil => cases h
  | cons s rest ih =>
    unfold maxOpt at h
    cases hr : maxOpt rest with
    | none => rw [hr] at h; injection h with h; exact h ▸ List.mem_cons_self s rest
    | some m' =>
      rw [hr] at h
      injection h with h2
      rcases max_choice s m' with hc | hc
      · have hm : m = s := by rw [← h2, hc]
        rw [hm]; exact List.mem_cons_self s rest
      · have hm : m = m' := by rw [← h2, hc]
        rw [hm]; exact List.mem_cons_of_mem s (ih m' hr)

theorem le_maxOpt (l : List String) (a : String) (ha : a ∈ l) :
    ∃ m, maxOpt l = some m ∧ a ≤ m := by
  induction l with
  | nil => cases ha
  | cons s rest ih =>
    rcases List.mem_cons.mp ha with rfl | ha2
    · unfold maxOpt
      cases hr : maxOpt rest with
      | none => exact ⟨a, rfl, le_refl a⟩
      | some m' => exact ⟨max a m', rfl, le_max_left a m'⟩
    · obtain ⟨m', hm', hle⟩ := ih ha2
      unfold maxOpt
      rw [hm']
      exact ⟨max s m', rfl, le_trans hle (le_max_right s m')⟩

theorem join_chunkAccum (limit : Nat) (l chunk : List String) :
    (chunkAccum limit l chunk).flatten = chunk ++ l := by
  induction l generalizing chunk with
  | nil =>
    unfold chunkAccum
    cases hc : chunk.isEmpty
    · simp
    · have : chunk = [] := List.isEmpty_iff.mp hc
      simp [this]
  | cons s rest ih =>
    unfold chunkAccum
    dsimp only
    split
    · simp [ih]
    · simp [ih]

theorem mem_firstDedup (a : String) (l : List String) :
    ∀ seen, a ∈ firstDedup l seen ↔ a ∈ l ∧ a ∉ seen := by
  induction l with
  | nil => intro seen; simp [firstDedup]
  | cons s rest ih =>
    intro seen
    unfold firstDedup
    by_cases hs : s ∈ seen
    · rw [if_pos hs, ih seen]
      constructor
      · exact fun ⟨h1, h2⟩ => ⟨List.mem_cons_of_mem s h1, h2⟩
      · rintro ⟨h1, h2⟩
        rcases List.mem_cons.mp h1 with rfl | h3
        · exact absurd hs h2
        · exact ⟨h3, h2⟩
    · rw [if_neg hs]
      constructor
      · intro h
        rcases List.mem_cons.mp h with rfl | h2
        · exact ⟨List.mem_cons_self a rest, hs⟩
        · obtain ⟨h3, h4⟩ := (ih (s :: seen)).mp h2
          refine ⟨List.mem_cons_of_mem s h3, ?_⟩
          intro hc
          exact h4 (List.mem_cons_of_mem s hc)
      · rintro ⟨h1, h2⟩
        rcases List.mem_cons.mp h1 with rfl | h3
        · exact List.mem_cons_self a _
        · by_cases hax : a = s
          · subst hax; exact List.mem_cons_self a _
          · refine List.mem_cons_of_mem s ((ih (s :: seen)).mpr ⟨h3, ?_⟩)
            intro hc
            rcases List.mem_cons.mp hc with hc2 | hc2
            · exact hax hc2
            · exact h2 hc2

theorem lookupA_foldl_addRow (s2k : List (String × String)) (k : String) (hk : k ≠ "") :
    ∀ (rows' : List SearchRunRow) (recs : List (String × SearchRunRow)),
      lookupA (rows'.foldl (addRow s2k) recs) k
        = orO (lookupA recs k)
            ((rows'.filter
              (fun row => lookupA s2k row.search_signature == some k)).head?)
  | [], recs => by simp [orO_none_right]
  | row :: rest, recs => by
    cases hs : lookupA s2k row.search_signature with
    | none =>
      have hcond : (lookupA s2k row.search_signature == some k) = false := by
        rw [hs]; rfl
      have haddr : addRow s2k recs row = recs := by simp [addRow, hs]
      simp only [List.foldl_cons, List.filter_cons, hcond, Bool.false_eq_true,
        if_false, haddr]
      exact lookupA_foldl_addRow s2k k hk rest recs
    | some key =>
      by_cases hke : key = ""
      · subst hke
        have hcond : (lookupA s2k row.search_signature == some k) = false := by
          rw [hs]
          exact beq_eq_false_iff_ne.mpr (fun hc => hk (Option.some.inj hc).symm)
        have haddr : addRow s2k recs row = recs := by simp [addRow, hs]
        simp only [List.foldl_cons, List.filter_cons, hcond, Bool.false_eq_true,
          if_false, haddr]
        exact lookupA_foldl_addRow s2k k hk rest recs
      · have hcond : (lookupA s2k row.search_signature == some k) = (key == k) := by
          rw [hs]
          cases hkk : (key == k)
          · exact beq_eq_false_iff_ne.mpr
              (fun hc => (beq_eq_false_iff_ne.mp hkk) (Option.some.inj hc))
          · exact beq_iff_eq.mpr (congrArg some (beq_iff_eq.mp hkk))
        have haddr : addRow s2k recs row = insertIfAbsent recs key row := by
          simp [addRow, hs, hke]
        simp only [List.foldl_cons, List.filter_cons, hcond, haddr]
        rw [lookupA_foldl_addRow s2k k hk rest (insertIfAbsent recs key row),
            lookupA_insertIfAbsent]
        by_cases hkk : key = k
        · subst hkk
          have h1 : (if key = key then some row else (none : Option SearchRunRow))
              = some row := if_pos rfl
          rw [h1]
          simp only [beq_self_eq_true, if_true, List.head?_cons]
          exact orO_some_absorb (lookupA recs key) row _
        · have h1 : (if k = key then some row else (none : Option SearchRunRow))
              = none := if_neg (fun hc => hkk hc.symm)
          have h2 : (key == k) = false := beq_eq_false_iff_ne.mpr hkk
          rw [h1, orO_none_right]
          simp only [h2, Bool.false_eq_true, if_false]

theorem lookupA_processChunk (rows : List SearchRunRow) (s2k : List (String × String))
    (recs : List (String × SearchRunRow)) (chunk : List String) (k : String)
    (hk : k ≠ "") :
    lookupA (processChunk rows s2k recs chunk) k
      = orO (lookupA recs k)
          (((queryChunk rows chunk).filter
            (fun row => lookupA s2k row.search_signature == some k)).head?) :=
  lookupA_foldl_addRow s2k k hk (queryChunk rows chunk) recs

theorem lookupA_foldl_chunks (rows : List SearchRunRow) (s2k : List (String × String))
    (k : String) (hk : k ≠ "") (V : Option SearchRunRow) (sigk : String)
    (hpick : ∀ c, ((queryChunk rows c).filter
        (fun row => lookupA s2k row.search_signature == some k)).head?
        = if sigk ∈ c then V else none) :
    ∀ (chunks : List (List String)) (recs : List (String × SearchRunRow)),
      lookupA (chunks.foldl (processChunk rows s2k) recs) k
        = orO (lookupA recs k) (if sigk ∈ chunks.flatten then V else none)
  | [], recs => by simp [orO_none_right]
  | c :: cs, recs => by
    simp only [List.foldl_cons]
    rw [lookupA_foldl_chunks rows s2k k hk V sigk hpick cs (processChunk rows s2k recs c),
        lookupA_processChunk rows s2k recs c k hk, hpick c, orO_assoc]
    congr 1
    by_cases hc : sigk ∈ c
    · rw [if_pos hc]
      have hj : sigk ∈ (c :: cs).flatten := by
        rw [List.flatten_cons]
        exact List.mem_append.mpr (Or.inl hc)
      rw [if_pos hj]
      cases V with
      | none => rw [orO_none_left, ite_self]
      | some v => rfl
    · rw [if_neg hc, orO_none_left]
      have hj : sigk ∈ (c :: cs).flatten ↔ sigk ∈ cs.flatten := by
        rw [List.flatten_cons, List.mem_append]
        exact ⟨fun h => h.resolve_left hc, fun h => Or.inr h⟩
      by_cases hcs : sigk ∈ cs.flatten
      · rw [if_pos hcs, if_pos (hj.mpr hcs)]
      · rw [if_neg hcs, if_neg (fun hh => hcs (hj.mp hh))]

theorem buildSigToKey_acc (label : Option String) :
    ∀ (pairs : List (Destination × SearchParams)) (m : List (String × String)),
      (∀ dp ∈ pairs, lookupA m (sigOf label dp) = none) →
      ((pairs.map (sigOf label)).Nodup) →
      buildSigToKey label pairs m
        = m ++ pairs.map (fun dp => (sigOf label dp, dp.1.key))
  | [], m => by simp [buildSigToKey]
  | dp :: rest, m => by
    intro hnone hnd
    have hm : lookupA m (sigOf label dp) = none :=
      hnone dp (List.mem_cons_self dp rest)
    have hnd' : sigOf label dp ∉ rest.map (sigOf label)
        ∧ (rest.map (sigOf label)).Nodup := by
      rw [List.map_cons] at hnd
      exact List.nodup_cons.mp hnd
    have hnone2 : ∀ dp2 ∈ rest,
        lookupA (m ++ [(sigOf label dp, dp.1.key)]) (sigOf label dp2) = none := by
      intro dp2 hdp2
      rw [lookupA_append, hnone dp2 (List.mem_cons_of_mem dp hdp2), orO_none_left]
      have hne : (sigOf label dp == sigOf label dp2) = false := by
        apply beq_eq_false_iff_ne.mpr
        intro hc
        exact hnd'.1 (hc ▸ List.mem_map_of_mem (sigOf label) hdp2)
      simp [lookupA, hne]
    unfold buildSigToKey
    rw [hm]
    simp only [Option.isSome_none, Bool.false_eq_true, if_false]
    rw [buildSigToKey_acc label rest (m ++ [(sigOf label dp, dp.1.key)]) hnone2 hnd'.2]
    simp

theorem signature_to_key_eq (runs : List (Destination × SearchParams))
    (label : Option String) (hsig : (runs.map (sigOf label)).Nodup) :
    signature_to_key runs label
      = runs.map (fun dp => (sigOf label dp, dp.1.key)) := by
  unfold signature_to_key
  rw [buildSigToKey_acc label runs [] (fun dp _ => rfl) hsig]
  simp

theorem lookupA_map_pairs_self (label : Option String) :
    ∀ (pairs : List (Destination × SearchParams)),
      ((pairs.map (sigOf label)).Nodup) →
      ∀ dp ∈ pairs,
        lookupA (pairs.map (fun dp => (sigOf label dp, dp.1.key))) (sigOf label dp)
          = some dp.1.key
  | [], _, dp, hdp => absurd hdp (List.not_mem_nil dp)
  | dp0 :: rest, hnd, dp, hdp => by
    rcases List.mem_cons.mp hdp with rfl | hrest
    · simp [lookupA]
    · have hnd' : sigOf label dp0 ∉ rest.map (sigOf label)
          ∧ (rest.map (sigOf label)).Nodup := by
        rw [List.map_cons] at hnd
        exact List.nodup_cons.mp hnd
      have hne : (sigOf label dp0 == sigOf label dp) = false := by
        apply beq_eq_false_iff_ne.mpr
        intro hc
        exact hnd'.1 (hc ▸ List.mem_map_of_mem (sigOf label) hrest)
      simp only [List.map_cons, lookupA, hne, Bool.false_eq_true, if_false]
      exact lookupA_map_pairs_self label rest hnd'.2 dp hrest

theorem lookupA_map_pairs_mem (label : Option String) :
    ∀ (pairs : List (Destination × SearchParams)) (s k : String),
      lookupA (pairs.map (fun dp => (sigOf label dp, dp.1.key))) s = some k →
      ∃ dp, dp ∈ pairs ∧ sigOf label dp = s ∧ dp.1.key = k
  | [], _, _, h => by cases h
  | dp0 :: rest, s, k, h => by
    cases hc : (sigOf label dp0 == s) with
    | true =>
      simp only [List.map_cons, lookupA, hc, if_true] at h
      exact ⟨dp0, List.mem_cons_self dp0 rest, beq_iff_eq.mp hc, Option.some.inj h⟩
    | false =>
      simp only [List.map_cons, lookupA, hc, Bool.false_eq_true, if_false] at h
      obtain ⟨dp, hdp, hs, hk⟩ := lookupA_map_pairs_mem label rest s k h
      exact ⟨dp, List.mem_cons_of_mem dp0 hdp, hs, hk⟩

theorem cond_eq_sig (label : Option String) (runs : List (Destination × SearchParams))
    (hkeys : (runs.map (fun dp => dp.1.key)).Nodup)
    (hsig : (runs.map (sigOf label)).Nodup)
    (dp : Destination × SearchParams) (hdp : dp ∈ runs) (sg : String) :
    (lookupA (runs.map (fun dp => (sigOf label dp, dp.1.key))) sg == some dp.1.key)
      = (sg == sigOf label dp) := by
  cases hrs : (sg == sigOf label dp) with
  | true =>
    rw [beq_iff_eq.mp hrs, lookupA_map_pairs_self label runs hsig dp hdp]
    exact beq_self_eq_true _
  | false =>
    have hne : sg ≠ sigOf label dp := beq_eq_false_iff_ne.mp hrs
    cases hl : lookupA (runs.map (fun dp => (sigOf label dp, dp.1.key))) sg with
    | none => rfl
    | some k2 =>
      obtain ⟨dp2, hdp2, hs2, hk2⟩ := lookupA_map_pairs_mem label runs sg k2 hl
      apply beq_eq_false_iff_ne.mpr
      intro hc
      have hkk : dp2.1.key = dp.1.key := by rw [hk2]; exact Option.some.inj hc
      have hdd : dp2 = dp := (List.inj_on_of_nodup_map hkeys) hdp2 hdp hkk
      exact hne (by rw [← hs2, hdd])

theorem filter_queryChunk (rows : List SearchRunRow) (chunk : List String)
    (sigk : String) :
    (queryChunk rows chunk).filter (fun r => r.search_signature == sigk)
      = if sigk ∈ chunk then latestRows rows sigk else [] := by
  unfold queryChunk latestRows
  rw [List.filter_filter]
  by_cases hc : sigk ∈ chunk
  · rw [if_pos hc]
    apply List.filter_congr
    intro r _
    cases hr : (r.search_signature == sigk) with
    | false => simp [hr]
    | true =>
      have hrr : r.search_signature = sigk := beq_iff_eq.mp hr
      simp [hr, hrr, hc]
  · rw [if_neg hc]
    apply List.filter_eq_nil_iff.mpr
    intro r _
    cases hr : (r.search_signature == sigk) with
    | false => simp [hr]
    | true =>
      have hrr : r.search_signature = sigk := beq_iff_eq.mp hr
      simp [hr, hrr, hc]

theorem pick_pair_key (rows : List SearchRunRow) (label : Option String)
    (runs : List (Destination × SearchParams))
    (hkeys : (runs.map (fun dp => dp.1.key)).Nodup)
    (hsig : (runs.map (sigOf label)).Nodup)
    (dp : Destination × SearchParams) (hdp : dp ∈ runs) (c : List String) :
    ((queryChunk rows c).filter
        (fun row => lookupA (runs.map (fun dp => (sigOf label dp, dp.1.key)))
          row.search_signature == some dp.1.key)).head?
      = if sigOf label dp ∈ c then (latestRows rows (sigOf label dp)).head?
        else none := by
  have hcong : (queryChunk rows c).filter
      (fun row => lookupA (runs.map (fun dp => (sigOf label dp, dp.1.key)))
        row.search_signature == some dp.1.key)
      = (queryChunk rows c).filter
          (fun row => row.search_signature == sigOf label dp) := by
    apply List.filter_congr
    intro r _
    exact cond_eq_sig label runs hkeys hsig dp hdp r.search_signature
  rw [hcong, filter_queryChunk]
  by_cases hc : sigOf label dp ∈ c
  · rw [if_pos hc, if_pos hc]
  · rw [if_neg hc, if_neg hc]; rfl

theorem lookupA_bulk_pair (rows : List SearchRunRow)
    (runs : List (Destination × SearchParams)) (label : Option String)
    (hne : runs ≠ [])
    (hkeys : (runs.map (fun dp => dp.1.key)).Nodup)
    (hsig : (runs.map (sigOf label)).Nodup)
    (dp : Destination × SearchParams) (hdp : dp ∈ runs) (hk : dp.1.key ≠ "") :
    lookupA (fetch_latest_runs_bulk rows runs label) dp.1.key
      = (latestRows rows (sigOf label dp)).head? := by
  have hie : ¬ (runs.isEmpty = true) := fun hc => hne (List.isEmpty_iff.mp hc)
  unfold fetch_latest_runs_bulk
  rw [if_neg hie, signature_to_key_eq runs label hsig,
      lookupA_foldl_chunks rows _ dp.1.key hk
        ((latestRows rows (sigOf label dp)).head?) (sigOf label dp)
        (pick_pair_key rows label runs hkeys hsig dp hdp)
        (chunkAccum SQLITE_PARAMETER_LIMIT
          (ordered_unique (runs.map (sigOf label))) []) [],
      join_chunkAccum]
  have hmem : sigOf label dp ∈ ([] : List String)
      ++ ordered_unique (runs.map (sigOf label)) := by
    rw [List.nil_append]
    exact (mem_firstDedup _ _ []).mpr
      ⟨List.mem_map_of_mem (sigOf label) hdp, List.not_mem_nil _⟩
  rw [if_pos hmem]
  rfl

theorem lookupA_bulk_other (rows : List SearchRunRow)
    (runs : List (Destination × SearchParams)) (label : Option String)
    (hsig : (runs.map (sigOf label)).Nodup)
    (k : String) (hk : k ≠ "") (hno : ∀ dp ∈ runs, dp.1.key ≠ k) :
    lookupA (fetch_latest_runs_bulk rows runs label) k = none := by
  unfold fetch_latest_runs_bulk
  by_cases hie : runs.isEmpty = true
  · rw [if_pos hie]; rfl
  · rw [if_neg hie, signature_to_key_eq runs label hsig]
    have hpick : ∀ c, ((queryChunk rows c).filter
        (fun row => lookupA (runs.map (fun dp => (sigOf label dp, dp.1.key)))
          row.search_signature == some k)).head?
        = if "" ∈ c then (none : Option SearchRunRow) else none := by
      intro c
      have hnil : (queryChunk rows c).filter
          (fun row => lookupA (runs.map (fun dp => (sigOf label dp, dp.1.key)))
            row.search_signature == some k) = [] := by
        apply List.filter_eq_nil_iff.mpr
        intro r _
        intro hc
        cases hl : lookupA (runs.map (fun dp => (sigOf label dp, dp.1.key)))
            r.search_signature with
        | none =>
          rw [hl] at hc
          exact Bool.false_ne_true hc
        | some k2 =>
          rw [hl] at hc
          have hk2 : k2 = k := Option.some.inj (beq_iff_eq.mp hc)
          obtain ⟨dp2, hdp2, _, hkey2⟩ :=
            lookupA_map_pairs_mem label runs r.search_signature k2 hl
          exact hno dp2 hdp2 (by rw [← hk2, hkey2])
      rw [hnil, ite_self]
      rfl
    rw [lookupA_foldl_chunks rows _ k hk none "" hpick
        (chunkAccum SQLITE_PARAMETER_LIMIT
          (ordered_unique (runs.map (sigOf label))) []) []]
    rw [ite_self]
    rfl

theorem keys_nodup_addRow (s2k : List (String × String))
    (recs : List (String × SearchRunRow)) (row : SearchRunRow)
    (h : (recs.map Prod.fst).Nodup) :
    ((addRow s2k recs row).map Prod.fst).Nodup := by
  unfold addRow
  cases hl : lookupA s2k row.search_signature with
  | none => exact h
  | some key =>
    dsimp only
    by_cases hk : key = ""
    · rw [if_pos (beq_iff_eq.mpr hk)]; exact h
    · rw [if_neg (fun hc => hk (beq_iff_eq.mp hc))]
      exact keys_nodup_insertIfAbsent recs key row h

theorem keys_nodup_foldl_addRow (s2k : List (String × String)) :
    ∀ (rows' : List SearchRunRow) (recs : List (String × SearchRunRow)),
      (recs.map Prod.fst).Nodup →
      (((rows'.foldl (addRow s2k) recs)).map Prod.fst).Nodup
  | [], _, h => h
  | row :: rest, recs, h =>
    keys_nodup_foldl_addRow s2k rest (addRow s2k recs row)
      (keys_nodup_addRow s2k recs row h)

theorem keys_nodup_foldl_chunks (rows : List SearchRunRow)
    (s2k : List (String × String)) :
    ∀ (chunks : List (List String)) (recs : List (String × SearchRunRow)),
      (recs.map Prod.fst).Nodup →
      ((chunks.foldl (processChunk rows s2k) recs).map Prod.fst).Nodup
  | [], _, h => h
  | c :: cs, recs, h =>
    keys_nodup_foldl_chunks rows s2k cs (processChunk rows s2k recs c)
      (keys_nodup_foldl_addRow s2k (queryChunk rows c) recs h)

theorem mem_keys_insertIfAbsent {α : Type} (m : List (String × α)) (k : String)
    (v : α) (key2 : String)
    (h : key2 ∈ (insertIfAbsent m k v).map Prod.fst) :
    key2 ∈ m.map Prod.fst ∨ key2 = k := by
  unfold insertIfAbsent at h
  by_cases hm : (lookupA m k).isSome = true
  · rw [if_pos hm] at h; exact Or.inl h
  · rw [if_neg hm] at h
    simp only [List.map_append, List.map_cons, List.map_nil] at h
    rcases List.mem_append.mp h with h1 | h1
    · exact Or.inl h1
    · rcases List.mem_cons.mp h1 with h2 | h2
      · exact Or.inr h2
      · cases h2

theorem mem_keys_addRow (s2k : List (String × String))
    (recs : List (String × SearchRunRow)) (row : SearchRunRow) (key2 : String)
    (h : key2 ∈ (addRow s2k recs row).map Prod.fst) :
    key2 ∈ recs.map Prod.fst
      ∨ (lookupA s2k row.search_signature = some key2 ∧ key2 ≠ "") := by
  unfold addRow at h
  revert h
  cases hl : lookupA s2k row.search_signature with
  | none => intro h; exact Or.inl h
  | some key =>
    intro h
    dsimp only at h
    by_cases hk : key = ""
    · rw [if_pos (beq_iff_eq.mpr hk)] at h
      exact Or.inl h
    · rw [if_neg (fun hc => hk (beq_iff_eq.mp hc))] at h
      rcases mem_keys_insertIfAbsent recs key row key2 h with h1 | h1
      · exact Or.inl h1
      · exact Or.inr ⟨by rw [h1], by rw [h1]; exact hk⟩

theorem mem_keys_foldl_addRow (s2k : List (String × String)) :
    ∀ (rows' : List SearchRunRow) (recs : List (String × SearchRunRow))
      (key2 : String),
      key2 ∈ ((rows'.foldl (addRow s2k) recs).map Prod.fst) →
      key2 ∈ recs.map Prod.fst ∨ ∃ sg, lookupA s2k sg = some key2 ∧ key2 ≠ ""
  | [], _, _, h => Or.inl h
  | row :: rest, recs, key2, h => by
    rcases mem_keys_foldl_addRow s2k rest (addRow s2k recs row) key2 h with h1 | h1
    · rcases mem_keys_addRow s2k recs row key2 h1 with h2 | h2
      · exact Or.inl h2
      · exact Or.inr ⟨row.search_signature, h2⟩
    · exact Or.inr h1

theorem mem_keys_foldl_chunks (rows : List SearchRunRow)
    (s2k : List (String × String)) :
    ∀ (chunks : List (List String)) (recs : List (String × SearchRunRow))
      (key2 : String),
      key2 ∈ ((chunks.foldl (processChunk rows s2k) recs).map Prod.fst) →
      key2 ∈ recs.map Prod.fst ∨ ∃ sg, lookupA s2k sg = some key2 ∧ key2 ≠ ""
  | [], _, _, h => Or.inl h
  | c :: cs, recs, key2, h => by
    rcases mem_keys_foldl_chunks rows s2k cs (processChunk rows s2k recs c) key2 h
      with h1 | h1
    · rcases mem_keys_foldl_addRow s2k (queryChunk rows c) recs key2 h1 with h2 | h2
      · exact Or.inl h2
      · exact Or.inr h2
    · exact Or.inr h1

theorem head?_isSome_iff_ne_nil {α : Type} (l : List α) :
    l.head?.isSome = true ↔ l ≠ [] := by
  cases l <;> simp

theorem mem_of_head? {α : Type} (l : List α) (a : α) (h : l.head? = some a) :
    a ∈ l := by
  cases l with
  | nil => cases h
  | cons x t =>
    injection h with h2
    rw [← h2]
    exact List.mem_cons_self x t

/-- C4. For distinct, nonempty destination keys with distinct signatures,
`fetch_latest_runs_bulk` — which deduplicates signatures before querying
and queries them in chunks of at most 900 — returns a map with no
duplicate keys, containing a record for a destination exactly when its
signature has at least one stored row, that record being a stored row of
the signature with the maximum `started_at`; no key beyond the input
destinations ever appears, for inputs of any size (chunking included). -/
theorem fetch_latest_runs_bulk_correct (rows : List SearchRunRow)
    (runs : List (Destination × SearchParams)) (label : Option String)
    (hne : runs ≠ [])
    (hkeys : (runs.map (fun dp => dp.1.key)).Nodup)
    (hsig : (runs.map (sigOf label)).Nodup)
    (hkey_ne : ∀ dp ∈ runs, dp.1.key ≠ "") :
    ((fetch_latest_runs_bulk rows runs label).map Prod.fst).Nodup
    ∧ (∀ dp ∈ runs,
        ((lookupA (fetch_latest_runs_bulk rows runs label) dp.1.key).isSome = true
          ↔ ∃ r ∈ rows, r.search_signature = sigOf label dp)
        ∧ (∀ row, lookupA (fetch_latest_runs_bulk rows runs label) dp.1.key
              = some row →
            row ∈ rows ∧ row.search_signature = sigOf label dp
            ∧ ∀ r ∈ rows, r.search_signature = sigOf label dp →
                r.started_at ≤ row.started_at))
    ∧ (∀ k ∈ (fetch_latest_runs_bulk rows runs label).map Prod.fst,
        ∃ dp ∈ runs, dp.1.key = k) := by
  have hie : ¬ (runs.isEmpty = true) := fun hc => hne (List.isEmpty_iff.mp hc)
  refine ⟨?_, ?_, ?_⟩
  · unfold fetch_latest_runs_bulk
    rw [if_neg hie]
    exact keys_nodup_foldl_chunks rows _ _ [] List.nodup_nil
  · intro dp hdp
    have hlu := lookupA_bulk_pair rows runs label hne hkeys hsig dp hdp
      (hkey_ne dp hdp)
    constructor
    · rw [hlu]
      constructor
      · intro hs
        obtain ⟨row, hrow⟩ := Option.isSome_iff_exists.mp hs
        have hmem := mem_of_head? _ row hrow
        have hf := List.mem_filter.mp hmem
        exact ⟨row, hf.1, beq_iff_eq.mp ((Bool.and_eq_true _ _).mp hf.2).1⟩
      · rintro ⟨r, hr, hsigr⟩
        have hrf : r ∈ rows.filter
            (fun x => x.search_signature == sigOf label dp) :=
          List.mem_filter.mpr ⟨hr, beq_iff_eq.mpr hsigr⟩
        have hst : r.started_at ∈ (rows.filter
            (fun x => x.search_signature == sigOf label dp)).map
            (fun x => x.started_at) :=
          List.mem_map_of_mem _ hrf
        obtain ⟨m, hm, _⟩ := le_maxOpt _ _ hst
        obtain ⟨r', hr'f, hstart⟩ := List.mem_map.mp (maxOpt_mem _ m hm)
        have hr'mem : r' ∈ latestRows rows (sigOf label dp) := by
          apply List.mem_filter.mpr
          refine ⟨(List.mem_filter.mp hr'f).1, (Bool.and_eq_true _ _).mpr ⟨?_, ?_⟩⟩
          · exact (List.mem_filter.mp hr'f).2
          · apply beq_iff_eq.mpr
            unfold maxStarted
            rw [hm, hstart]
        rw [head?_isSome_iff_ne_nil]
        exact List.ne_nil_of_mem hr'mem
    · intro row hrow
      rw [hlu] at hrow
      have hmem := mem_of_head? _ row hrow
      have hf := List.mem_filter.mp hmem
      have hsig' : row.search_signature = sigOf label dp :=
        beq_iff_eq.mp ((Bool.and_eq_true _ _).mp hf.2).1
      have hmax : maxStarted rows (sigOf label dp) = some row.started_at :=
        beq_iff_eq.mp ((Bool.and_eq_true _ _).mp hf.2).2
      refine ⟨hf.1, hsig', ?_⟩
      intro r hr hsigr
      have hrf : r ∈ rows.filter
          (fun x => x.search_signature == sigOf label dp) :=
        List.mem_filter.mpr ⟨hr, beq_iff_eq.mpr hsigr⟩
      have hst : r.started_at ∈ (rows.filter
          (fun x => x.search_signature == sigOf label dp)).map
          (fun x => x.started_at) :=
        List.mem_map_of_mem _ hrf
      obtain ⟨m, hm, hle⟩ := le_maxOpt _ _ hst
      have : some m = some row.started_at := by
        rw [← hm]
        unfold maxStarted at hmax
        exact hmax
      rw [Option.some.inj this] at hle
      exact hle
  · intro k hk
    revert hk
    unfold fetch_latest_runs_bulk
    rw [if_neg hie, signature_to_key_eq runs label hsig]
    intro hk
    rcases mem_keys_foldl_chunks rows _ _ [] k hk with h1 | ⟨sg, hsg, _⟩
    · cases h1
    · obtain ⟨dp, hdp, _, hkey⟩ := lookupA_map_pairs_mem label runs sg k hsg
      exact ⟨dp, hdp, hkey⟩

/-- A second concrete destination for the bulk-lookup witness. -/
def destB : Destination :=
  { key := "osaka", group := "Asia", name := "Osaka"
  , location_id := some "LOC-2", latitude := some 3, longitude := some 4 }

/-- C4 witness: on a concrete two-destination input large enough to
exercise dedup and keyed lookup, the result map has no duplicate keys. -/
theorem fetch_latest_runs_bulk_correct_witness :
    ((fetch_latest_runs_bulk [runningRowA] [(destA, paramsA), (destB, paramsB)]
        (some "2026-01-15")).map Prod.fst).Nodup :=
  (fetch_latest_runs_bulk_correct [runningRowA] [(destA, paramsA), (destB, paramsB)]
    (some "2026-01-15") (by decide) (by decide) (by decide) (by decide)).1

end FalconFHR
